import Mathlib

/-!
Verification of the ioc233 dependency-injection container (`ioc.go`).

Shallow embedding notes:
* Go's `reflect.Type` is modelled by `GoType`; the environment `Env` supplies
  the reflective facts the code queries (struct field lists, simple names,
  the `Implements` relation, which lifecycle interfaces a dynamic type
  satisfies).
* A registered instance (`any` value) is an `Inst`.  Pointer-to-struct
  instances point at a heap cell holding the struct's field values; field
  mutation through `reflect.Value.Set` is explicit heap update.  A struct
  passed by value carries its own (never-mutated) cell, because
  `reflect.ValueOf` on a non-pointer is not addressable and both
  `initBasicFields` and `injectInternal` return early for it.
* Go maps (`typeToObjectMap`, `nameToObjMap`) are association lists with
  unique keys; `m[k] = v` is `setAssoc` (replace-or-append).  Go map
  *iteration* order is unspecified, so every `for range` over a map is
  parametrised by the list of entries in iteration order (`ord1`, `ord2`,
  `scan`), constrained in theorems to be a permutation of the map's entries.
* Lifecycle hooks, field writes and `logError` calls are recorded as an
  `Event` trace; hook bodies are treated as observers (the container code
  never reads anything a hook could change that matters to these claims).
* `strings.TrimSpace` is modelled by `trimSpace` below (whitespace trim on
  the character list), since `String.trim` does not reduce in the kernel.
-/

namespace Ioc233

/-- Kinds of Go reflect types, as discriminated by `Kind()` in the source. -/
inductive TypeKind where
  | kptr | kstruct | kiface | kmap | kslice | kother
  deriving DecidableEq, Repr

/-- A Go reflect type.  `strukt`, `iface`, `mapT`, `sliceT`, `prim` are
identified by numeric ids; `ptr e` is the pointer type `*e`.
By convention `prim 0` stands for `rand.Rand`, so `GoType.ptr (.prim 0)`
is `*rand.Rand`.  A pointer-to-struct is always written `.ptr (.strukt s)`
(never hidden inside `.prim`). -/
inductive GoType where
  | ptr (e : GoType)
  | strukt (sid : Nat)
  | iface (iid : Nat)
  | mapT (mid : Nat)
  | sliceT (lid : Nat)
  | prim (pid : Nat)
  deriving DecidableEq, Repr

/-- `reflect.Type.Kind()`. -/
def GoType.kind : GoType → TypeKind
  | .ptr _ => .kptr
  | .strukt _ => .kstruct
  | .iface _ => .kiface
  | .mapT _ => .kmap
  | .sliceT _ => .kslice
  | .prim _ => .kother

/-- The Go type `*rand.Rand`, compared against by `ApplyDefaultProviders`. -/
def randRandTy : GoType := GoType.ptr (.prim 0)

/-- A registered instance (a Go `any` value).
`ptrTo r sid` is a `*S` (struct id `sid`) pointing at heap cell `r`;
`structVal r sid` is an `S` passed by value (its copied field values live in
cell `r`, which is never mutated since the reflect value is unaddressable);
`primInst t n` is any other value with dynamic type `t` (by convention `t`
is never a pointer-to-struct there). -/
inductive Inst where
  | ptrTo (r : Nat) (sid : Nat)
  | structVal (r : Nat) (sid : Nat)
  | primInst (t : GoType) (n : Nat)
  deriving DecidableEq, Repr

/-- `reflect.TypeOf(instance)`: the dynamic type of a non-nil `any`. -/
def Inst.dynType : Inst → GoType
  | .ptrTo _ sid => .ptr (.strukt sid)
  | .structVal _ sid => .strukt sid
  | .primInst t _ => t

/-- The heap cell an instance can mutate through injection (only a
pointer-to-struct instance can). -/
def Inst.cellOf : Inst → Option Nat
  | .ptrTo r _ => some r
  | _ => none

/-- A value stored in a struct field.  `vnil` is the zero value of any
nil-able field (pointer, interface, map, slice); `vinst i` is a registered
instance assigned into the field; `vmapEmpty`, `vsliceEmpty`, `vrandNew`
are the fresh values produced by `ApplyDefaultProviders`; `vprim` is any
other caller-supplied value. -/
inductive GoValue where
  | vnil
  | vinst (i : Inst)
  | vmapEmpty
  | vsliceEmpty
  | vrandNew
  | vprim (n : Nat)
  deriving DecidableEq, Repr

/-- One struct field as seen through reflection: name, type, the `autowire`
and `inject` tag values (`""` when the tag is absent), and whether
`CanSet()` holds (i.e. the field is exported). -/
structure FieldDecl where
  fname : String
  ftype : GoType
  awTag : String
  injTag : String
  settable : Bool
  deriving DecidableEq, Repr

/-- The four optional lifecycle capabilities
(`IProvideAfter`, `IInjectBefore`, `IInjectAfter`, `IObject`). -/
inductive Cap where
  | provideAfter | injectBefore | injectAfter | injectComplete
  deriving DecidableEq, Repr

/-- Reflective facts about the Go type universe.
`impls t i` is `t.Implements(iface i)` (method-set based);
`caps t c` is whether a value of dynamic type `t` satisfies the type
assertion for hook capability `c`. -/
structure Env where
  structName : Nat → String
  ifaceName : Nat → String
  primName : Nat → String
  tyString : GoType → String
  structFields : Nat → List FieldDecl
  impls : GoType → Nat → Bool
  caps : GoType → Cap → Bool

/-- `reflect.Type.Name()`: the simple (package-local) name; empty for
pointer, map and slice types (ours are unnamed). -/
def typeName (env : Env) : GoType → String
  | .strukt s => env.structName s
  | .iface i => env.ifaceName i
  | .prim p => env.primName p
  | _ => ""

/-- The name-computation idiom used three times in the source:
`n := t.Name(); if n == "" && t.Kind() == Ptr { n = t.Elem().Name() };
if n == "" { n = t.String() }`. -/
def simpleOrString (env : Env) (t : GoType) : String :=
  let n := typeName env t
  let n2 := if n = "" then (match t with | .ptr e => typeName env e | _ => n) else n
  if n2 = "" then env.tyString t else n2

/-- The implements-check idiom of `injectInternal` (lines 291, 349-350):
`objType.Implements(ifc) || (objType.Kind() == Ptr && objType.Elem().Implements(ifc))`. -/
def implOK (env : Env) (objType : GoType) (iid : Nat) : Bool :=
  env.impls objType iid || (match objType with | .ptr e => env.impls e iid | _ => false)

/-- `reflect.Type.AssignableTo`: identical type, or implementing the target
interface. -/
def assignableTo (env : Env) (t u : GoType) : Bool :=
  t = u || (match u with | .iface n => env.impls t n | _ => false)

/-- Helper for `trimSpace`: drop leading whitespace characters. -/
def dropWS : List Char → List Char
  | [] => []
  | c :: t => if c.isWhitespace then dropWS t else c :: t

/-- `strings.TrimSpace`. -/
def trimSpace (s : String) : String :=
  String.mk (dropWS ((dropWS s.data).reverse)).reverse

/-- Association-list lookup, modelling Go map read `m[k]`. -/
def getAssoc {κ α : Type} [DecidableEq κ] : List (κ × α) → κ → Option α
  | [], _ => none
  | (k', a') :: t, k => if k' = k then some a' else getAssoc t k

/-- Association-list write, modelling Go map assignment `m[k] = a`
(replace the live entry, or append a fresh one). -/
def setAssoc {κ α : Type} [DecidableEq κ] : List (κ × α) → κ → α → List (κ × α)
  | [], k, a => [(k, a)]
  | (k', a') :: t, k, a => if k' = k then (k, a) :: t else (k', a') :: setAssoc t k a

/-- The heap: cell id to the field values of the struct stored there. -/
abbrev Heap := List (Nat × List GoValue)

/-- `ApplyDefaultProviders` (default value provider file): for a settable
field, seed a nil map / nil slice / nil `*rand.Rand` with a fresh value.
`some v` means the provider fired (source result `true`) and the field is
now `v`; `none` means no change (source result `false`). -/
def ApplyDefaultProviders (fd : FieldDecl) (v : GoValue) : Option GoValue :=
  if !fd.settable then none
  else if fd.ftype.kind = .kmap then (if v = .vnil then some .vmapEmpty else none)
  else if fd.ftype.kind = .kslice then (if v = .vnil then some .vsliceEmpty else none)
  else if fd.ftype = randRandTy then (if v = .vnil then some .vrandNew else none)
  else none

/-- One iteration of `initBasicFields`'s field loop: skip unsettable
fields and fields carrying an `autowire` or `inject` tag, otherwise apply
`ApplyDefaultProviders` and store the result. -/
def initFieldStep (fd : FieldDecl) (i : Nat) (vals : List GoValue) : List GoValue :=
  if fd.settable ∧ fd.awTag = "" ∧ fd.injTag = "" then
    match ApplyDefaultProviders fd (vals.getD i .vnil) with
    | some v => vals.set i v
    | none => vals
  else vals

/-- The field loop of `initBasicFields`, walking the fields with their
indices. -/
def initFieldsAux : Nat → List FieldDecl → List GoValue → List GoValue
  | _, [], vals => vals
  | i, fd :: rest, vals => initFieldsAux (i + 1) rest (initFieldStep fd i vals)

/-- `initBasicFields`: only pointer-to-struct instances are processed
(`v.Kind() != Ptr` and `elem.Kind() != Struct` both return early). -/
def initBasicFields (env : Env) (heap : Heap) (inst : Inst) : Heap :=
  match inst with
  | .ptrTo r sid =>
      let vals := (getAssoc heap r).getD []
      setAssoc heap r (initFieldsAux 0 (env.structFields sid) vals)
  | _ => heap

/-- The resolution-error sites of `injectInternal`, one per `logError`. -/
inductive ErrKind where
  | errNotSettable
  | errIfaceNoImpl
  | errTypeNameMismatch
  | errTypeNameMissing
  | errByNameMismatch
  | errByNameMissing
  deriving DecidableEq, Repr

/-- Observable events: the four lifecycle hook invocations, a successful
field assignment (`reflect.Value.Set` inside `injectInternal`), and a
resolution-error log. -/
inductive Event where
  | evProvideAfter (i : Inst)
  | evInjectBefore (i : Inst)
  | evInjectAfter (i : Inst)
  | evInjectComplete (i : Inst)
  | evFieldSet (i : Inst) (idx : Nat)
  | evResolveError (k : ErrKind) (i : Inst) (idx : Nat)
  deriving DecidableEq, Repr

/-- Is the event an `OnInjectComplete` call? -/
def Event.isComplete : Event → Bool
  | .evInjectComplete _ => true
  | _ => false

/-- Is the event an `OnProvideAfter` call? -/
def Event.isProvide : Event → Bool
  | .evProvideAfter _ => true
  | _ => false

/-- The container state relevant to the claims: the Type Index, the Name
Index, and the fatal error log (`fatalErrors`, holding the duplicated
names). -/
structure Container where
  typeToObjectMap : List (GoType × Inst)
  nameToObjMap : List (String × Inst)
  fatalErrors : List String
  deriving DecidableEq, Repr

/-- Container state plus the heap of struct cells and the event trace. -/
structure World where
  heap : Heap
  ctr : Container
  events : List Event
  deriving DecidableEq, Repr

/-- The freshly constructed container (`Instance()` of a new process). -/
def emptyWorld : World :=
  { heap := [],
    ctr := { typeToObjectMap := [], nameToObjMap := [], fatalErrors := [] },
    events := [] }

/-- `Container.Provide` (ioc.go lines 58-105).  `none` models a nil
`instance`.  Seeding runs before the duplicate-type check; the duplicate
branch changes nothing but the seeded heap; the default bean name is
skipped (with a warning) when taken; hook 1 fires when implemented. -/
def Provide (env : Env) (w : World) (instOpt : Option Inst) : World :=
  match instOpt with
  | none => w
  | some inst =>
    let t := inst.dynType
    let heap1 := initBasicFields env w.heap inst
    if (getAssoc w.ctr.typeToObjectMap t).isSome then
      { w with heap := heap1 }
    else
      let beanName := simpleOrString env t
      let nom :=
        if (getAssoc w.ctr.nameToObjMap beanName).isSome then w.ctr.nameToObjMap
        else w.ctr.nameToObjMap ++ [(beanName, inst)]
      { heap := heap1,
        ctr := { typeToObjectMap := w.ctr.typeToObjectMap ++ [(t, inst)],
                 nameToObjMap := nom,
                 fatalErrors := w.ctr.fatalErrors },
        events := w.events ++
          (if env.caps t .provideAfter then [.evProvideAfter inst] else []) }

/-- `Container.ProvideByName` (ioc.go lines 110-145).  The returned `Bool`
is `true` when the call returns a non-nil error.  A duplicate name appends
to `fatalErrors` and changes nothing else; otherwise the Type Index entry
for the instance's dynamic type is written unconditionally (Go map
assignment), the name is added, and hook 1 fires. -/
def ProvideByName (env : Env) (w : World) (name : String) (instOpt : Option Inst) :
    World × Bool :=
  match instOpt with
  | none => (w, true)
  | some inst =>
    if trimSpace name = "" then (w, true)
    else if (getAssoc w.ctr.nameToObjMap name).isSome then
      ({ w with ctr := { w.ctr with fatalErrors := w.ctr.fatalErrors ++ [name] } }, true)
    else
      let t := inst.dynType
      let heap1 := initBasicFields env w.heap inst
      ({ heap := heap1,
         ctr := { typeToObjectMap := setAssoc w.ctr.typeToObjectMap t inst,
                  nameToObjMap := w.ctr.nameToObjMap ++ [(name, inst)],
                  fatalErrors := w.ctr.fatalErrors },
         events := w.events ++
           (if env.caps t .provideAfter then [.evProvideAfter inst] else []) }, false)

/-- One field of `injectInternal`'s loop (ioc.go lines 255-362), split into
the decision (`resolveField`, which never reads the field's current value —
the source never does either) producing the optional new value and the
events.  `scan` is the Type Index in the iteration order of the interface
candidate scan; `nom` is the Name Index.  The source's `obj == nil` checks
are vacuous here because both registration paths reject nil instances. -/
def resolveField (env : Env) (scan : List (GoType × Inst)) (nom : List (String × Inst))
    (inst : Inst) (i : Nat) (fd : FieldDecl) : Option GoValue × List Event :=
  let tag := if fd.awTag ≠ "" then fd.awTag else fd.injTag
  if tag = "" then (none, [])
  else if !fd.settable then (none, [.evResolveError .errNotSettable inst i])
  else if tag = "true" ∨ tag = "false" then
    let mandatory := tag = "true"
    match fd.ftype with
    | .iface n =>
        let candidates := scan.filter (fun e => implOK env e.2.dynType n)
        match candidates with
        | c :: _ => (some (.vinst c.2), [.evFieldSet inst i])
        | [] =>
            if mandatory then (none, [.evResolveError .errIfaceNoImpl inst i])
            else (none, [])
    | _ =>
        let tn := simpleOrString env fd.ftype
        match getAssoc nom tn with
        | some obj =>
            if assignableTo env obj.dynType fd.ftype then
              (some (.vinst obj), [.evFieldSet inst i])
            else if mandatory then (none, [.evResolveError .errTypeNameMismatch inst i])
            else (none, [])
        | none =>
            if mandatory then (none, [.evResolveError .errTypeNameMissing inst i])
            else (none, [])
  else
    match getAssoc nom tag with
    | some obj =>
        if assignableTo env obj.dynType fd.ftype ||
            (match fd.ftype with | .iface n => implOK env obj.dynType n | _ => false) then
          (some (.vinst obj), [.evFieldSet inst i])
        else (none, [.evResolveError .errByNameMismatch inst i])
    | none => (none, [.evResolveError .errByNameMissing inst i])

/-- Apply one field's resolution to the value list (`reflect.Value.Set`). -/
def injectField (env : Env) (scan : List (GoType × Inst)) (nom : List (String × Inst))
    (inst : Inst) (i : Nat) (fd : FieldDecl) (vals : List GoValue) :
    List GoValue × List Event :=
  match resolveField env scan nom inst i fd with
  | (some v, evs) => (vals.set i v, evs)
  | (none, evs) => (vals, evs)

/-- The field loop of `injectInternal`. -/
def injectFields (env : Env) (scan : List (GoType × Inst)) (nom : List (String × Inst))
    (inst : Inst) : Nat → List FieldDecl → List GoValue → List GoValue × List Event
  | _, [], vals => (vals, [])
  | i, fd :: rest, vals =>
    let p1 := injectField env scan nom inst i fd vals
    let p2 := injectFields env scan nom inst (i + 1) rest p1.1
    (p2.1, p1.2 ++ p2.2)

/-- `Container.injectInternal` (ioc.go lines 244-363): non-pointer
instances return immediately; pointer-to-struct instances have each tagged
field resolved and written back to their heap cell. -/
def injectInternal (env : Env) (scan : List (GoType × Inst)) (nom : List (String × Inst))
    (heap : Heap) (inst : Inst) : Heap × List Event :=
  match inst with
  | .ptrTo r sid =>
      let vals := (getAssoc heap r).getD []
      let p := injectFields env scan nom inst 0 (env.structFields sid) vals
      (setAssoc heap r p.1, p.2)
  | _ => (heap, [])

/-- The events of one field decision (value-independent by construction). -/
def fieldsEvents (env : Env) (scan : List (GoType × Inst)) (nom : List (String × Inst))
    (inst : Inst) : Nat → List FieldDecl → List Event
  | _, [] => []
  | i, fd :: rest =>
      (resolveField env scan nom inst i fd).2 ++ fieldsEvents env scan nom inst (i + 1) rest

/-- The events `injectInternal` emits for one instance (heap-independent). -/
def injEvents (env : Env) (scan : List (GoType × Inst)) (nom : List (String × Inst))
    (inst : Inst) : List Event :=
  match inst with
  | .ptrTo _ sid => fieldsEvents env scan nom inst 0 (env.structFields sid)
  | _ => []

/-- The per-bean body of `StartUp`'s first loop (ioc.go lines 167-191):
hook 2 when implemented, `injectInternal`, hook 3 when implemented. -/
def processBean (env : Env) (scan : List (GoType × Inst)) (nom : List (String × Inst))
    (acc : Heap × List Event) (e : GoType × Inst) : Heap × List Event :=
  let inst := e.2
  let evs1 := acc.2 ++
    (if env.caps inst.dynType .injectBefore then [.evInjectBefore inst] else [])
  let p := injectInternal env scan nom acc.1 inst
  (p.1, evs1 ++ p.2 ++
    (if env.caps inst.dynType .injectAfter then [.evInjectAfter inst] else []))

/-- The events one bean contributes to pass 1. -/
def beanBlock (env : Env) (scan : List (GoType × Inst)) (nom : List (String × Inst))
    (e : GoType × Inst) : List Event :=
  (if env.caps e.2.dynType .injectBefore then [.evInjectBefore e.2] else [])
  ++ injEvents env scan nom e.2
  ++ (if env.caps e.2.dynType .injectAfter then [.evInjectAfter e.2] else [])

/-- Concatenated pass-1 blocks in iteration order. -/
def blocksOf (env : Env) (scan : List (GoType × Inst)) (nom : List (String × Inst)) :
    List (GoType × Inst) → List Event
  | [] => []
  | e :: rest => beanBlock env scan nom e ++ blocksOf env scan nom rest

/-- The events of `StartUp`'s second loop (ioc.go lines 194-199): hook 4
for every bean implementing it, in iteration order. -/
def completesOf (env : Env) : List (GoType × Inst) → List Event
  | [] => []
  | e :: rest =>
      (if env.caps e.2.dynType .injectComplete then [Event.evInjectComplete e.2] else [])
      ++ completesOf env rest

/-- `Container.StartUp` (ioc.go lines 152-203).  `ord1` and `ord2` are the
Type Index entries in the (unspecified) Go map iteration order of the two
loops, `scan` the order seen by the interface candidate scans inside
`injectInternal`.  A non-empty fatal error log returns an error before
touching anything.  The returned `Bool` is `true` when `StartUp` returns a
non-nil error. -/
def StartUp (env : Env) (ord1 ord2 scan : List (GoType × Inst)) (w : World) :
    World × Bool :=
  if w.ctr.fatalErrors ≠ [] then (w, true)
  else
    let p := ord1.foldl (processBean env scan w.ctr.nameToObjMap) (w.heap, w.events)
    let evs2 := ord2.foldl
      (fun acc e =>
        acc ++ (if env.caps e.2.dynType .injectComplete
                then [Event.evInjectComplete e.2] else [])) p.2
    ({ w with heap := p.1, events := evs2 }, false)

/-- A registration call, for stating properties of call sequences. -/
inductive Op where
  | opProvide (i : Option Inst)
  | opProvideByName (n : String) (i : Option Inst)

/-- Apply one registration call (the error result of `ProvideByName` is
dropped: the caller may ignore it and keep going). -/
def applyOp (env : Env) (w : World) : Op → World
  | .opProvide i => Provide env w i
  | .opProvideByName n i => (ProvideByName env w n i).1

/-- Run a sequence of registration calls. -/
def run (env : Env) (w : World) (ops : List Op) : World :=
  ops.foldl (applyOp env) w

/-- The Type/Name Index invariant: keys occur at most once. -/
def keysNodup {κ α : Type} (l : List (κ × α)) : Prop :=
  (l.map Prod.fst).Nodup

/-- Every bean in the Type Index that implements `IProvideAfter` already
had its hook-1 call recorded (holds for every world built by registration
calls, since both `Provide` and `ProvideByName` fire the hook when they
insert). -/
def regHookFired (env : Env) (w : World) : Prop :=
  ∀ e ∈ w.ctr.typeToObjectMap, env.caps e.2.dynType Cap.provideAfter = true →
    Event.evProvideAfter e.2 ∈ w.events

end Ioc233

namespace Ioc233

/-! ### Concrete scenario environments used by witnesses -/

/-- A small concrete environment: structs 0-3 named "S0".."S3", one
interface 0 named "I" implemented (through the pointer type) by struct 1
only, and all four hook capabilities on every pointer-to-struct type.
Struct 0 has one interface field (`autowire:"true"`), struct 2 has a
by-name field `autowire:"S9"` (unregistered name), and struct 3 has an
untagged map field and an untagged slice field. -/
def envW : Env :=
  { structName := fun s =>
      if s = 0 then "S0" else if s = 1 then "S1"
      else if s = 2 then "S2" else if s = 3 then "S3"
      else if s = 5 then "A5" else if s = 6 then "B6" else ""
    ifaceName := fun _ => "I"
    primName := fun _ => ""
    tyString := fun _ => "pkg.T"
    structFields := fun s =>
      if s = 0 then
        [{ fname := "Dep", ftype := .iface 0, awTag := "true", injTag := "",
           settable := true }]
      else if s = 2 then
        [{ fname := "Ref", ftype := .ptr (.strukt 9), awTag := "S9", injTag := "",
           settable := true }]
      else if s = 3 then
        [{ fname := "M", ftype := .mapT 0, awTag := "", injTag := "", settable := true },
         { fname := "L", ftype := .sliceT 0, awTag := "", injTag := "", settable := true }]
      else if s = 5 then
        [{ fname := "PB", ftype := .ptr (.strukt 6), awTag := "B6", injTag := "",
           settable := true }]
      else if s = 6 then
        [{ fname := "PA", ftype := .ptr (.strukt 5), awTag := "A5", injTag := "",
           settable := true }]
      else []
    impls := fun t i => i = 0 ∧ t = GoType.ptr (.strukt 1)
    caps := fun t _ => match t with | .ptr (.strukt _) => true | _ => false }

/-- A world with heap cells 0-3 sized for structs 0-3, no registrations. -/
def w0W : World :=
  { heap := [(0, [GoValue.vnil]), (1, []), (2, [GoValue.vnil]),
             (3, [GoValue.vnil, GoValue.vnil]), (4, [GoValue.vnil, GoValue.vnil]),
             (5, [GoValue.vnil]), (6, [GoValue.vnil]), (7, [GoValue.vnil])],
    ctr := { typeToObjectMap := [], nameToObjMap := [], fatalErrors := [] },
    events := [] }

/-- Two hook-observable beans registered in order: first `*S1` (bean
`ptrTo 1 1`), then a `*S4` (bean `ptrTo 5 4`; struct 4 is anonymous and has
no fields). -/
def wC6 : World :=
  run envW w0W [Op.opProvide (some (Inst.ptrTo 1 1)), Op.opProvide (some (Inst.ptrTo 5 4))]

/-- The reverse of `wC6`'s registration order — a legitimate Go map
iteration order over the same two Type Index entries. -/
def wC6ord : List (GoType × Inst) :=
  [(GoType.ptr (.strukt 4), Inst.ptrTo 5 4), (GoType.ptr (.strukt 1), Inst.ptrTo 1 1)]

/-- A world with `*S2` registered (struct 2 carries a by-name field
`autowire:"S9"` whose target name is never registered). -/
def wC5 : World := run envW w0W [Op.opProvide (some (Inst.ptrTo 2 2))]

/-- A world with `*S0` (which has a mandatory interface field for iface 0)
and `*S1` (the unique implementer of iface 0) registered. -/
def wC3 : World :=
  run envW w0W [Op.opProvide (some (Inst.ptrTo 0 0)), Op.opProvide (some (Inst.ptrTo 1 1))]

/-- A world with the mutually-referencing beans `*A5` (bean `ptrTo 6 5`,
by-name field targeting "B6") and `*B6` (bean `ptrTo 7 6`, by-name field
targeting "A5") registered under their default names. -/
def wC7 : World :=
  run envW w0W [Op.opProvide (some (Inst.ptrTo 6 5)), Op.opProvide (some (Inst.ptrTo 7 6))]

/-! ### List and association-list helper lemmas -/

theorem getD_set_of_lt {α : Type} (l : List α) (i : Nat) (v d : α) (h : i < l.length) :
    (l.set i v).getD i d = v := by
  induction l generalizing i with
  | nil => simp at h
  | cons a t ih =>
    cases i with
    | zero => rfl
    | succ n => simpa using ih n (by simpa using h)

theorem getD_set_ne {α : Type} (l : List α) (i j : Nat) (v d : α) (h : i ≠ j) :
    (l.set i v).getD j d = l.getD j d := by
  induction l generalizing i j with
  | nil => rfl
  | cons a t ih =>
    cases i with
    | zero =>
      cases j with
      | zero => exact absurd rfl h
      | succ m => simp
    | succ n =>
      cases j with
      | zero => simp
      | succ m => simpa using ih n m (by omega)

theorem getAssoc_setAssoc_self {κ α : Type} [DecidableEq κ] (l : List (κ × α)) (k : κ) (a : α) :
    getAssoc (setAssoc l k a) k = some a := by
  induction l with
  | nil => simp [setAssoc, getAssoc]
  | cons e t ih =>
    by_cases h : e.1 = k
    · simp [setAssoc, getAssoc, h]
    · simp [setAssoc, getAssoc, h, ih]

theorem getAssoc_setAssoc_ne {κ α : Type} [DecidableEq κ] (l : List (κ × α)) (k k' : κ)
    (a : α) (h : k ≠ k') : getAssoc (setAssoc l k a) k' = getAssoc l k' := by
  induction l with
  | nil => simp [setAssoc, getAssoc, h]
  | cons e t ih =>
    by_cases he : e.1 = k
    · simp [setAssoc, getAssoc, he, h]
    · simp only [setAssoc, he, if_false, getAssoc]
      by_cases he' : e.1 = k'
      · simp [he']
      · simp [he', ih]

theorem getAssoc_append {κ α : Type} [DecidableEq κ] (l1 l2 : List (κ × α)) (k : κ) :
    getAssoc (l1 ++ l2) k =
      (match getAssoc l1 k with | some a => some a | none => getAssoc l2 k) := by
  induction l1 with
  | nil => simp [getAssoc]
  | cons e t ih =>
    by_cases h : e.1 = k
    · simp [getAssoc, h]
    · simp [getAssoc, h, ih]

theorem getAssoc_eq_none_iff {κ α : Type} [DecidableEq κ] (l : List (κ × α)) (k : κ) :
    getAssoc l k = none ↔ k ∉ l.map Prod.fst := by
  induction l with
  | nil => simp [getAssoc]
  | cons e t ih =>
    by_cases h : e.1 = k
    · simp [getAssoc, h]
    · simp only [getAssoc, h, if_false, List.map_cons, List.mem_cons]
      constructor
      · intro hn hc
        rcases hc with hc | hc
        · exact h hc.symm
        · exact (ih.mp hn) hc
      · intro hn
        exact ih.mpr (fun hc => hn (Or.inr hc))

theorem getAssoc_mem {κ α : Type} [DecidableEq κ] (l : List (κ × α)) (k : κ) (a : α)
    (h : getAssoc l k = some a) : (k, a) ∈ l := by
  induction l with
  | nil => simp [getAssoc] at h
  | cons e t ih =>
    by_cases he : e.1 = k
    · simp only [getAssoc, he, if_true, Option.some.injEq] at h
      cases e with
      | mk k0 a0 =>
        simp only at he h
        subst he
        subst h
        exact List.mem_cons_self _ _
    · simp only [getAssoc, he, if_false] at h
      exact List.mem_cons_of_mem _ (ih h)

theorem mem_setAssoc {κ α : Type} [DecidableEq κ] (l : List (κ × α)) (k : κ) (a : α) :
    ∀ e ∈ setAssoc l k a, e = (k, a) ∨ e ∈ l := by
  induction l with
  | nil => simp [setAssoc]
  | cons e0 t ih =>
    intro e he
    by_cases h : e0.1 = k
    · simp only [setAssoc, h, if_true, List.mem_cons] at he
      rcases he with he | he
      · exact Or.inl he
      · exact Or.inr (List.mem_cons_of_mem _ he)
    · simp only [setAssoc, h, if_false, List.mem_cons] at he
      rcases he with he | he
      · exact Or.inr (by simp [he])
      · rcases ih e he with h1 | h1
        · exact Or.inl h1
        · exact Or.inr (List.mem_cons_of_mem _ h1)

theorem mapFst_setAssoc {κ α : Type} [DecidableEq κ] (l : List (κ × α)) (k : κ) (a : α) :
    (setAssoc l k a).map Prod.fst =
      (if (getAssoc l k).isSome then l.map Prod.fst else l.map Prod.fst ++ [k]) := by
  induction l with
  | nil => simp [setAssoc, getAssoc]
  | cons e t ih =>
    by_cases h : e.1 = k
    · simp [setAssoc, getAssoc, h]
    · simp only [setAssoc, h, if_false, List.map_cons, getAssoc, ih]
      cases hg : getAssoc t k <;> simp [hg]

theorem keysNodup_setAssoc {κ α : Type} [DecidableEq κ] (l : List (κ × α)) (k : κ) (a : α)
    (h : keysNodup l) : keysNodup (setAssoc l k a) := by
  unfold keysNodup at *
  rw [mapFst_setAssoc]
  cases hg : getAssoc l k with
  | some a0 => simpa [hg] using h
  | none =>
    simp only [hg, Option.isSome_none, Bool.false_eq_true, if_false]
    refine List.Nodup.append h (List.nodup_singleton k) ?_
    intro x hx hk
    simp only [List.mem_singleton] at hk
    subst hk
    exact (getAssoc_eq_none_iff l x).mp hg hx

theorem keysNodup_append_single {κ α : Type} [DecidableEq κ] (l : List (κ × α)) (k : κ)
    (a : α) (h : keysNodup l) (hk : getAssoc l k = none) : keysNodup (l ++ [(k, a)]) := by
  unfold keysNodup at *
  rw [List.map_append]
  refine List.Nodup.append h (by simp) ?_
  intro x hx hmem
  simp only [List.map_cons, List.map_nil, List.mem_singleton] at hmem
  subst hmem
  exact (getAssoc_eq_none_iff l x).mp hk hx

theorem pairsNodup_of_keysNodup {κ α : Type} (l : List (κ × α)) (h : keysNodup l) :
    l.Nodup := List.Nodup.of_map Prod.fst h

end Ioc233

namespace Ioc233


/-! ### Field-loop lemmas: `initFieldsAux` -/

theorem initFieldStep_length (fd : FieldDecl) (i : Nat) (vals : List GoValue) :
    (initFieldStep fd i vals).length = vals.length := by
  unfold initFieldStep
  split
  · cases hap : ApplyDefaultProviders fd (vals.getD i .vnil) <;> simp [List.length_set]
  · rfl

theorem initFieldStep_getD_ne (fd : FieldDecl) (i j : Nat) (vals : List GoValue)
    (h : i ≠ j) :
    (initFieldStep fd i vals).getD j GoValue.vnil = vals.getD j GoValue.vnil := by
  unfold initFieldStep
  split
  · cases hap : ApplyDefaultProviders fd (vals.getD i .vnil) with
    | some v => simp only [hap]; exact getD_set_ne _ _ _ _ _ h
    | none => simp only [hap]
  · rfl

theorem initFieldStep_getD_self (fd : FieldDecl) (i : Nat) (vals : List GoValue)
    (h : i < vals.length) :
    (initFieldStep fd i vals).getD i GoValue.vnil =
      (if fd.settable ∧ fd.awTag = "" ∧ fd.injTag = "" then
        match ApplyDefaultProviders fd (vals.getD i GoValue.vnil) with
        | some v => v
        | none => vals.getD i GoValue.vnil
      else vals.getD i GoValue.vnil) := by
  unfold initFieldStep
  split
  · cases hap : ApplyDefaultProviders fd (vals.getD i .vnil) with
    | some v => simp only [hap]; exact getD_set_of_lt _ _ _ _ h
    | none => simp only [hap]
  · rfl

theorem initFieldsAux_length (fds : List FieldDecl) :
    ∀ (i : Nat) (vals : List GoValue), (initFieldsAux i fds vals).length = vals.length := by
  induction fds with
  | nil => intro i vals; rfl
  | cons fd rest ih =>
    intro i vals
    simp only [initFieldsAux]
    rw [ih, initFieldStep_length]

theorem initFieldsAux_getD_lt (fds : List FieldDecl) :
    ∀ (i : Nat) (vals : List GoValue) (j : Nat), j < i →
      (initFieldsAux i fds vals).getD j GoValue.vnil = vals.getD j GoValue.vnil := by
  induction fds with
  | nil => intro i vals j _; rfl
  | cons fd rest ih =>
    intro i vals j hj
    simp only [initFieldsAux]
    rw [ih (i + 1) _ j (by omega), initFieldStep_getD_ne fd i j vals (by omega)]

theorem initFieldsAux_at (pre : List FieldDecl) :
    ∀ (fd : FieldDecl) (post : List FieldDecl) (i idx : Nat) (vals : List GoValue),
      idx = i + pre.length → idx < vals.length →
      (initFieldsAux i (pre ++ fd :: post) vals).getD idx GoValue.vnil =
        (if fd.settable ∧ fd.awTag = "" ∧ fd.injTag = "" then
          match ApplyDefaultProviders fd (vals.getD idx GoValue.vnil) with
          | some v => v
          | none => vals.getD idx GoValue.vnil
        else vals.getD idx GoValue.vnil) := by
  induction pre with
  | nil =>
    intro fd post i idx vals hidx hlen
    have hi : i = idx := by simp at hidx; omega
    subst hi
    simp only [List.nil_append, initFieldsAux]
    rw [initFieldsAux_getD_lt post (i + 1) _ i (by omega)]
    exact initFieldStep_getD_self fd i vals hlen
  | cons p pre' ih =>
    intro fd post i idx vals hidx hlen
    have hne : i ≠ idx := by simp at hidx; omega
    simp only [List.cons_append, initFieldsAux, List.append_eq]
    rw [ih fd post (i + 1) idx (initFieldStep p i vals)
        (by simp at hidx ⊢; omega) (by rw [initFieldStep_length]; omega),
      initFieldStep_getD_ne p i idx vals hne]

/-! ### Field-loop lemmas: `injectFields` -/

theorem injectField_length (env : Env) (scan : List (GoType × Inst))
    (nom : List (String × Inst)) (inst : Inst) (i : Nat) (fd : FieldDecl)
    (vals : List GoValue) :
    ((injectField env scan nom inst i fd vals).1).length = vals.length := by
  unfold injectField
  cases resolveField env scan nom inst i fd with
  | mk o evs => cases o <;> simp [List.length_set]

theorem injectField_getD_ne (env : Env) (scan : List (GoType × Inst))
    (nom : List (String × Inst)) (inst : Inst) (i : Nat) (fd : FieldDecl)
    (vals : List GoValue) (j : Nat) (d : GoValue) (h : i ≠ j) :
    ((injectField env scan nom inst i fd vals).1).getD j d = vals.getD j d := by
  unfold injectField
  cases resolveField env scan nom inst i fd with
  | mk o evs =>
    cases o with
    | none => rfl
    | some v => exact getD_set_ne _ _ _ _ _ h

theorem injectField_getD_self (env : Env) (scan : List (GoType × Inst))
    (nom : List (String × Inst)) (inst : Inst) (i : Nat) (fd : FieldDecl)
    (vals : List GoValue) (h : i < vals.length) :
    ((injectField env scan nom inst i fd vals).1).getD i GoValue.vnil =
      (match (resolveField env scan nom inst i fd).1 with
       | some v => v
       | none => vals.getD i GoValue.vnil) := by
  unfold injectField
  cases resolveField env scan nom inst i fd with
  | mk o evs =>
    cases o with
    | none => rfl
    | some v => exact getD_set_of_lt _ _ _ _ h

theorem injectField_events (env : Env) (scan : List (GoType × Inst))
    (nom : List (String × Inst)) (inst : Inst) (i : Nat) (fd : FieldDecl)
    (vals : List GoValue) :
    (injectField env scan nom inst i fd vals).2 = (resolveField env scan nom inst i fd).2 := by
  unfold injectField
  cases resolveField env scan nom inst i fd with
  | mk o evs => cases o <;> rfl

theorem injectFields_length (env : Env) (scan : List (GoType × Inst))
    (nom : List (String × Inst)) (inst : Inst) (fds : List FieldDecl) :
    ∀ (i : Nat) (vals : List GoValue),
      ((injectFields env scan nom inst i fds vals).1).length = vals.length := by
  induction fds with
  | nil => intro i vals; rfl
  | cons fd rest ih =>
    intro i vals
    simp only [injectFields]
    rw [ih, injectField_length]

theorem injectFields_getD_lt (env : Env) (scan : List (GoType × Inst))
    (nom : List (String × Inst)) (inst : Inst) (fds : List FieldDecl) :
    ∀ (i : Nat) (vals : List GoValue) (j : Nat) (d : GoValue), j < i →
      ((injectFields env scan nom inst i fds vals).1).getD j d = vals.getD j d := by
  induction fds with
  | nil => intro i vals j d _; rfl
  | cons fd rest ih =>
    intro i vals j d hj
    simp only [injectFields]
    rw [ih (i + 1) _ j d (by omega), injectField_getD_ne _ _ _ _ _ _ _ _ _ (by omega)]

theorem injectFields_events (env : Env) (scan : List (GoType × Inst))
    (nom : List (String × Inst)) (inst : Inst) (fds : List FieldDecl) :
    ∀ (i : Nat) (vals : List GoValue),
      (injectFields env scan nom inst i fds vals).2 = fieldsEvents env scan nom inst i fds := by
  induction fds with
  | nil => intro i vals; rfl
  | cons fd rest ih =>
    intro i vals
    simp only [injectFields, fieldsEvents]
    rw [ih, injectField_events]

theorem injectFields_at (env : Env) (scan : List (GoType × Inst))
    (nom : List (String × Inst)) (inst : Inst) (pre : List FieldDecl) :
    ∀ (fd : FieldDecl) (post : List FieldDecl) (i idx : Nat) (vals : List GoValue),
      idx = i + pre.length → idx < vals.length →
      ((injectFields env scan nom inst i (pre ++ fd :: post) vals).1).getD idx GoValue.vnil =
        (match (resolveField env scan nom inst idx fd).1 with
         | some v => v
         | none => vals.getD idx GoValue.vnil) := by
  induction pre with
  | nil =>
    intro fd post i idx vals hidx hlen
    have hi : i = idx := by simp at hidx; omega
    subst hi
    simp only [List.nil_append, injectFields]
    rw [injectFields_getD_lt _ _ _ _ post (i + 1) _ i _ (by omega)]
    exact injectField_getD_self _ _ _ _ _ _ _ hlen
  | cons p pre' ih =>
    intro fd post i idx vals hidx hlen
    have hne : i ≠ idx := by simp at hidx; omega
    simp only [List.cons_append, injectFields, List.append_eq]
    rw [ih fd post (i + 1) idx (injectField env scan nom inst i p vals).1
        (by simp at hidx ⊢; omega) (by rw [injectField_length]; omega),
      injectField_getD_ne _ _ _ _ _ _ _ _ _ hne]

theorem fieldsEvents_append (env : Env) (scan : List (GoType × Inst))
    (nom : List (String × Inst)) (inst : Inst) (a : List FieldDecl) :
    ∀ (b : List FieldDecl) (i : Nat),
      fieldsEvents env scan nom inst i (a ++ b) =
        fieldsEvents env scan nom inst i a ++
          fieldsEvents env scan nom inst (i + a.length) b := by
  induction a with
  | nil => intro b i; simp [fieldsEvents]
  | cons fd rest ih =>
    intro b i
    simp only [List.cons_append, fieldsEvents, List.append_eq, ih b (i + 1),
      List.append_assoc, List.length_cons]
    have h : i + 1 + rest.length = i + (rest.length + 1) := by omega
    rw [h]

end Ioc233

namespace Ioc233

/-! ### `injectInternal`, `processBean`, `StartUp` structural lemmas -/

theorem injectInternal_events (env : Env) (scan : List (GoType × Inst))
    (nom : List (String × Inst)) (heap : Heap) (inst : Inst) :
    (injectInternal env scan nom heap inst).2 = injEvents env scan nom inst := by
  cases inst with
  | ptrTo r sid => simp only [injectInternal, injEvents, injectFields_events]
  | structVal r sid => rfl
  | primInst t n => rfl

theorem injectInternal_getAssoc_ne (env : Env) (scan : List (GoType × Inst))
    (nom : List (String × Inst)) (heap : Heap) (inst : Inst) (r : Nat)
    (hr : inst.cellOf ≠ some r) :
    getAssoc (injectInternal env scan nom heap inst).1 r = getAssoc heap r := by
  cases inst with
  | ptrTo r' sid =>
    simp only [Inst.cellOf, Option.some.injEq, ne_eq] at hr
    simp only [injectInternal]
    exact getAssoc_setAssoc_ne _ _ _ _ hr
  | structVal r' sid => rfl
  | primInst t n => rfl

theorem processBean_eq (env : Env) (scan : List (GoType × Inst))
    (nom : List (String × Inst)) (acc : Heap × List Event) (e : GoType × Inst) :
    processBean env scan nom acc e =
      ((injectInternal env scan nom acc.1 e.2).1, acc.2 ++ beanBlock env scan nom e) := by
  simp only [processBean, beanBlock]
  rw [injectInternal_events]
  simp [List.append_assoc]

theorem blocksOf_append (env : Env) (scan : List (GoType × Inst))
    (nom : List (String × Inst)) (a b : List (GoType × Inst)) :
    blocksOf env scan nom (a ++ b) = blocksOf env scan nom a ++ blocksOf env scan nom b := by
  induction a with
  | nil => simp [blocksOf]
  | cons e t ih => simp [blocksOf, ih]

theorem completesOf_append (env : Env) (a b : List (GoType × Inst)) :
    completesOf env (a ++ b) = completesOf env a ++ completesOf env b := by
  induction a with
  | nil => simp [completesOf]
  | cons e t ih => simp [completesOf, ih]

theorem foldl_processBean_events (env : Env) (scan : List (GoType × Inst))
    (nom : List (String × Inst)) (l : List (GoType × Inst)) :
    ∀ (h : Heap) (evs : List Event),
      (l.foldl (processBean env scan nom) (h, evs)).2 = evs ++ blocksOf env scan nom l := by
  induction l with
  | nil => intro h evs; simp [blocksOf]
  | cons e t ih =>
    intro h evs
    simp only [List.foldl_cons, processBean_eq, blocksOf]
    rw [ih, List.append_assoc]

theorem foldl_processBean_frame (env : Env) (scan : List (GoType × Inst))
    (nom : List (String × Inst)) (l : List (GoType × Inst)) (r : Nat) :
    (∀ e ∈ l, e.2.cellOf ≠ some r) →
    ∀ (h : Heap) (evs : List Event),
      getAssoc (l.foldl (processBean env scan nom) (h, evs)).1 r = getAssoc h r := by
  induction l with
  | nil => intro _ h evs; rfl
  | cons e t ih =>
    intro hl h evs
    simp only [List.foldl_cons, processBean_eq]
    rw [ih (fun e' he' => hl e' (List.mem_cons_of_mem _ he')) _ _,
      injectInternal_getAssoc_ne _ _ _ _ _ _ (hl e (List.mem_cons_self _ _))]

theorem foldl_completes_events (env : Env) (l : List (GoType × Inst)) :
    ∀ evs : List Event,
      (l.foldl
        (fun acc e =>
          acc ++ (if env.caps e.2.dynType .injectComplete
                  then [Event.evInjectComplete e.2] else [])) evs) =
        evs ++ completesOf env l := by
  induction l with
  | nil => intro evs; simp [completesOf]
  | cons e t ih =>
    intro evs
    simp only [List.foldl_cons, completesOf]
    rw [ih, List.append_assoc]

theorem startUp_events (env : Env) (ord1 ord2 scan : List (GoType × Inst)) (w : World)
    (hfatal : w.ctr.fatalErrors = []) :
    (StartUp env ord1 ord2 scan w).1.events =
      w.events ++ blocksOf env scan w.ctr.nameToObjMap ord1 ++ completesOf env ord2 := by
  unfold StartUp
  simp only [hfatal, ne_eq, not_true_eq_false, if_false, reduceIte]
  rw [foldl_completes_events, foldl_processBean_events, List.append_assoc]

theorem startUp_success (env : Env) (ord1 ord2 scan : List (GoType × Inst)) (w : World)
    (hfatal : w.ctr.fatalErrors = []) :
    (StartUp env ord1 ord2 scan w).2 = false ∧
      (StartUp env ord1 ord2 scan w).1.ctr = w.ctr := by
  unfold StartUp
  simp [hfatal]

theorem startUp_fatal (env : Env) (ord1 ord2 scan : List (GoType × Inst)) (w : World)
    (hfatal : w.ctr.fatalErrors ≠ []) :
    StartUp env ord1 ord2 scan w = (w, true) := by
  unfold StartUp
  simp [hfatal]

end Ioc233

namespace Ioc233

/-! ### Locating one bean's processing inside `StartUp` -/

theorem nodup_split_of_mem {α : Type} [DecidableEq α] {l : List α} {a : α}
    (hmem : a ∈ l) (hnd : l.Nodup) :
    ∃ s t, l = s ++ a :: t ∧ a ∉ s ∧ a ∉ t := by
  obtain ⟨s, t, rfl⟩ := List.append_of_mem hmem
  rw [List.nodup_append] at hnd
  obtain ⟨hs, hat, hdisj⟩ := hnd
  rw [List.nodup_cons] at hat
  exact ⟨s, t, rfl, fun hc => hdisj hc (List.mem_cons_self _ _), hat.1⟩

theorem foldl_processBean_frame_acc (env : Env) (scan : List (GoType × Inst))
    (nom : List (String × Inst)) (l : List (GoType × Inst)) (r : Nat)
    (hl : ∀ e ∈ l, e.2.cellOf ≠ some r) :
    ∀ acc : Heap × List Event,
      getAssoc (l.foldl (processBean env scan nom) acc).1 r = getAssoc acc.1 r := by
  induction l with
  | nil => intro acc; rfl
  | cons e t ih =>
    intro acc
    simp only [List.foldl_cons]
    rw [ih (fun e' he' => hl e' (List.mem_cons_of_mem _ he')) _, processBean_eq,
      injectInternal_getAssoc_ne _ _ _ _ _ _ (hl e (List.mem_cons_self _ _))]

theorem startUp_heap_cell (env : Env) (ord1 ord2 scan : List (GoType × Inst)) (w : World)
    (r sid : Nat) (tB : GoType)
    (hfatal : w.ctr.fatalErrors = [])
    (hkeys : keysNodup w.ctr.typeToObjectMap)
    (hord1 : ord1.Perm w.ctr.typeToObjectMap)
    (hB : (tB, Inst.ptrTo r sid) ∈ w.ctr.typeToObjectMap)
    (halias : ∀ e ∈ w.ctr.typeToObjectMap, e ≠ (tB, Inst.ptrTo r sid) →
      e.2.cellOf ≠ some r) :
    getAssoc (StartUp env ord1 ord2 scan w).1.heap r =
      some (injectFields env scan w.ctr.nameToObjMap (Inst.ptrTo r sid) 0
              (env.structFields sid) ((getAssoc w.heap r).getD [])).1 := by
  have hnd : ord1.Nodup :=
    hord1.symm.nodup (pairsNodup_of_keysNodup _ hkeys)
  have hmem : (tB, Inst.ptrTo r sid) ∈ ord1 := hord1.mem_iff.mpr hB
  obtain ⟨s, t, hsplit, hns, hnt⟩ := nodup_split_of_mem hmem hnd
  have hframe_s : ∀ e ∈ s, e.2.cellOf ≠ some r := by
    intro e he
    refine halias e (hord1.subset (hsplit ▸ List.mem_append_left _ he)) ?_
    intro hc
    exact hns (hc ▸ he)
  have hframe_t : ∀ e ∈ t, e.2.cellOf ≠ some r := by
    intro e he
    refine halias e
      (hord1.subset (hsplit ▸ List.mem_append_right _ (List.mem_cons_of_mem _ he))) ?_
    intro hc
    exact hnt (hc ▸ he)
  unfold StartUp
  simp only [hfatal, ne_eq, not_true_eq_false, if_false, reduceIte]
  rw [hsplit, List.foldl_append, List.foldl_cons]
  rw [foldl_processBean_frame_acc env scan w.ctr.nameToObjMap t r hframe_t _,
    processBean_eq]
  simp only [injectInternal]
  rw [foldl_processBean_frame env scan w.ctr.nameToObjMap s r hframe_s _ _]
  exact getAssoc_setAssoc_self _ _ _

end Ioc233

namespace Ioc233

theorem startUp_field_value (env : Env) (ord1 ord2 scan : List (GoType × Inst)) (w : World)
    (r sid : Nat) (tB : GoType) (pre post : List FieldDecl) (fd : FieldDecl)
    (hfatal : w.ctr.fatalErrors = [])
    (hkeys : keysNodup w.ctr.typeToObjectMap)
    (hord1 : ord1.Perm w.ctr.typeToObjectMap)
    (hB : (tB, Inst.ptrTo r sid) ∈ w.ctr.typeToObjectMap)
    (halias : ∀ e ∈ w.ctr.typeToObjectMap, e ≠ (tB, Inst.ptrTo r sid) →
      e.2.cellOf ≠ some r)
    (hfields : env.structFields sid = pre ++ fd :: post)
    (hlen : pre.length < ((getAssoc w.heap r).getD []).length) :
    ∃ vals : List GoValue,
      getAssoc (StartUp env ord1 ord2 scan w).1.heap r = some vals ∧
      vals.getD pre.length GoValue.vnil =
        (match (resolveField env scan w.ctr.nameToObjMap (Inst.ptrTo r sid)
                  pre.length fd).1 with
         | some v => v
         | none => ((getAssoc w.heap r).getD []).getD pre.length GoValue.vnil) := by
  refine ⟨_, startUp_heap_cell env ord1 ord2 scan w r sid tB hfatal hkeys hord1 hB halias, ?_⟩
  rw [hfields]
  exact injectFields_at env scan w.ctr.nameToObjMap (Inst.ptrTo r sid) pre fd post 0
    pre.length _ (by omega) hlen

/-! ### Event membership through `StartUp` -/

theorem mem_blocksOf_of_mem (env : Env) (scan : List (GoType × Inst))
    (nom : List (String × Inst)) (l : List (GoType × Inst)) (e : GoType × Inst)
    (he : e ∈ l) (ev : Event) (hev : ev ∈ beanBlock env scan nom e) :
    ev ∈ blocksOf env scan nom l := by
  induction l with
  | nil => simp at he
  | cons e0 t ih =>
    rcases List.mem_cons.mp he with h | h
    · subst h
      exact List.mem_append_left _ hev
    · exact List.mem_append_right _ (ih h)

theorem mem_beanBlock_injEvents (env : Env) (scan : List (GoType × Inst))
    (nom : List (String × Inst)) (e : GoType × Inst) (ev : Event)
    (hev : ev ∈ injEvents env scan nom e.2) : ev ∈ beanBlock env scan nom e := by
  unfold beanBlock
  exact List.mem_append_left _ (List.mem_append_right _ hev)

theorem mem_injEvents_of_field (env : Env) (scan : List (GoType × Inst))
    (nom : List (String × Inst)) (r sid : Nat) (pre post : List FieldDecl) (fd : FieldDecl)
    (hfields : env.structFields sid = pre ++ fd :: post) (ev : Event)
    (hev : ev ∈ (resolveField env scan nom (Inst.ptrTo r sid) pre.length fd).2) :
    ev ∈ injEvents env scan nom (Inst.ptrTo r sid) := by
  simp only [injEvents]
  rw [hfields, fieldsEvents_append]
  refine List.mem_append_right _ ?_
  simp only [Nat.zero_add, fieldsEvents]
  exact List.mem_append_left _ hev

theorem startUp_mem_events_of_field (env : Env) (ord1 ord2 scan : List (GoType × Inst))
    (w : World) (r sid : Nat) (tB : GoType) (pre post : List FieldDecl) (fd : FieldDecl)
    (hfatal : w.ctr.fatalErrors = [])
    (hord1 : ord1.Perm w.ctr.typeToObjectMap)
    (hB : (tB, Inst.ptrTo r sid) ∈ w.ctr.typeToObjectMap)
    (hfields : env.structFields sid = pre ++ fd :: post) (ev : Event)
    (hev : ev ∈ (resolveField env scan w.ctr.nameToObjMap (Inst.ptrTo r sid)
        pre.length fd).2) :
    ev ∈ (StartUp env ord1 ord2 scan w).1.events := by
  rw [startUp_events env ord1 ord2 scan w hfatal]
  refine List.mem_append_left _ (List.mem_append_right _ ?_)
  exact mem_blocksOf_of_mem env scan _ ord1 (tB, Inst.ptrTo r sid)
    (hord1.mem_iff.mpr hB) ev
    (mem_beanBlock_injEvents env scan _ _ ev
      (mem_injEvents_of_field env scan _ r sid pre post fd hfields ev hev))

/-! ### Registration-sequence invariants -/

theorem applyOp_fatal_mono (env : Env) (w : World) (op : Op) :
    ∃ l, (applyOp env w op).ctr.fatalErrors = w.ctr.fatalErrors ++ l := by
  cases op with
  | opProvide i =>
    cases i with
    | none => exact ⟨[], by simp [applyOp, Provide]⟩
    | some inst =>
      simp only [applyOp, Provide]
      split
      · exact ⟨[], by simp⟩
      · exact ⟨[], by simp⟩
  | opProvideByName n i =>
    cases i with
    | none => exact ⟨[], by simp [applyOp, ProvideByName]⟩
    | some inst =>
      simp only [applyOp, ProvideByName]
      split
      · exact ⟨[], by simp⟩
      · split
        · exact ⟨[n], by simp⟩
        · exact ⟨[], by simp⟩

theorem run_fatal_ne (env : Env) (ops : List Op) :
    ∀ w : World, w.ctr.fatalErrors ≠ [] → (run env w ops).ctr.fatalErrors ≠ [] := by
  induction ops with
  | nil => intro w h; exact h
  | cons op t ih =>
    intro w h
    have h1 := applyOp_fatal_mono env w op
    obtain ⟨l, hl⟩ := h1
    refine ih (applyOp env w op) ?_
    rw [hl]
    intro hc
    rcases List.append_eq_nil.mp hc with ⟨h2, _⟩
    exact h h2

theorem keysNodup_applyOp (env : Env) (w : World) (op : Op)
    (h : keysNodup w.ctr.typeToObjectMap) :
    keysNodup (applyOp env w op).ctr.typeToObjectMap := by
  cases op with
  | opProvide i =>
    cases i with
    | none => exact h
    | some inst =>
      simp only [applyOp, Provide]
      split
      · exact h
      · rename_i hdup
        exact keysNodup_append_single _ _ _ h
          (by simpa using hdup)
  | opProvideByName n i =>
    cases i with
    | none => exact h
    | some inst =>
      simp only [applyOp, ProvideByName]
      split
      · exact h
      · split
        · exact h
        · exact keysNodup_setAssoc _ _ _ h

theorem keysNodup_run (env : Env) (ops : List Op) :
    ∀ w : World, keysNodup w.ctr.typeToObjectMap →
      keysNodup (run env w ops).ctr.typeToObjectMap := by
  induction ops with
  | nil => intro w h; exact h
  | cons op t ih => intro w h; exact ih _ (keysNodup_applyOp env w op h)

end Ioc233

namespace Ioc233

/-! ### Hook-1 invariant under registration -/

theorem regHookFired_applyOp (env : Env) (w : World) (op : Op)
    (h : regHookFired env w) : regHookFired env (applyOp env w op) := by
  cases op with
  | opProvide i =>
    cases i with
    | none => exact h
    | some inst =>
      simp only [applyOp, Provide]
      split
      · exact h
      · intro e he hcap
        rcases List.mem_append.mp he with hold | hnew
        · exact List.mem_append_left _ (h e hold hcap)
        · simp only [List.mem_singleton] at hnew
          subst hnew
          simp only [Inst.dynType] at hcap ⊢
          simp only [hcap, if_true, reduceIte]
          exact List.mem_append_right _ (List.mem_singleton.mpr rfl)
  | opProvideByName n i =>
    cases i with
    | none => exact h
    | some inst =>
      simp only [applyOp, ProvideByName]
      split
      · exact h
      · split
        · exact h
        · intro e he hcap
          rcases mem_setAssoc _ _ _ e he with hnew | hold
          · subst hnew
            simp only at hcap ⊢
            simp only [hcap, if_true, reduceIte]
            exact List.mem_append_right _ (List.mem_singleton.mpr rfl)
          · exact List.mem_append_left _ (h e hold hcap)

theorem regHookFired_run (env : Env) (ops : List Op) :
    ∀ w : World, regHookFired env w → regHookFired env (run env w ops) := by
  induction ops with
  | nil => intro w h; exact h
  | cons op t ih => intro w h; exact ih _ (regHookFired_applyOp env w op h)

theorem regHookFired_emptyWorld (env : Env) : regHookFired env emptyWorld := by
  intro e he
  simp [emptyWorld] at he

/-! ### Event classification -/

theorem resolveField_events_mid (env : Env) (scan : List (GoType × Inst))
    (nom : List (String × Inst)) (inst : Inst) (i : Nat) (fd : FieldDecl) :
    ∀ ev ∈ (resolveField env scan nom inst i fd).2,
      ev.isComplete = false ∧ ev.isProvide = false := by
  intro ev hev
  simp only [resolveField] at hev
  repeat' split at hev
  all_goals simp_all [Event.isComplete, Event.isProvide]

theorem fieldsEvents_mid (env : Env) (scan : List (GoType × Inst))
    (nom : List (String × Inst)) (inst : Inst) (fds : List FieldDecl) :
    ∀ i : Nat, ∀ ev ∈ fieldsEvents env scan nom inst i fds,
      ev.isComplete = false ∧ ev.isProvide = false := by
  induction fds with
  | nil => intro i ev hev; simp [fieldsEvents] at hev
  | cons fd rest ih =>
    intro i ev hev
    simp only [fieldsEvents] at hev
    rcases List.mem_append.mp hev with h | h
    · exact resolveField_events_mid env scan nom inst i fd ev h
    · exact ih (i + 1) ev h

theorem injEvents_mid (env : Env) (scan : List (GoType × Inst))
    (nom : List (String × Inst)) (inst : Inst) :
    ∀ ev ∈ injEvents env scan nom inst,
      ev.isComplete = false ∧ ev.isProvide = false := by
  intro ev hev
  cases inst with
  | ptrTo r sid => exact fieldsEvents_mid env scan nom _ _ 0 ev hev
  | structVal r sid => simp [injEvents] at hev
  | primInst t n => simp [injEvents] at hev

theorem beanBlock_mid (env : Env) (scan : List (GoType × Inst))
    (nom : List (String × Inst)) (e : GoType × Inst) :
    ∀ ev ∈ beanBlock env scan nom e,
      ev.isComplete = false ∧ ev.isProvide = false := by
  intro ev hev
  unfold beanBlock at hev
  rcases List.mem_append.mp hev with h1 | h1
  · rcases List.mem_append.mp h1 with h2 | h2
    · split at h2
      · simp only [List.mem_singleton] at h2
        subst h2
        exact ⟨rfl, rfl⟩
      · simp at h2
    · exact injEvents_mid env scan nom e.2 ev h2
  · split at h1
    · simp only [List.mem_singleton] at h1
      subst h1
      exact ⟨rfl, rfl⟩
    · simp at h1

theorem blocksOf_mid (env : Env) (scan : List (GoType × Inst))
    (nom : List (String × Inst)) (l : List (GoType × Inst)) :
    ∀ ev ∈ blocksOf env scan nom l,
      ev.isComplete = false ∧ ev.isProvide = false := by
  induction l with
  | nil => intro ev hev; simp [blocksOf] at hev
  | cons e t ih =>
    intro ev hev
    simp only [blocksOf] at hev
    rcases List.mem_append.mp hev with h | h
    · exact beanBlock_mid env scan nom e ev h
    · exact ih ev h

theorem completesOf_shape (env : Env) (l : List (GoType × Inst)) :
    ∀ ev ∈ completesOf env l, ev.isComplete = true := by
  induction l with
  | nil => intro ev hev; simp [completesOf] at hev
  | cons e t ih =>
    intro ev hev
    simp only [completesOf] at hev
    rcases List.mem_append.mp hev with h | h
    · split at h
      · simp only [List.mem_singleton] at h
        subst h
        rfl
      · simp at h
    · exact ih ev h

theorem mem_completesOf (env : Env) (l : List (GoType × Inst)) (e : GoType × Inst)
    (he : e ∈ l) (hc : env.caps e.2.dynType Cap.injectComplete = true) :
    Event.evInjectComplete e.2 ∈ completesOf env l := by
  induction l with
  | nil => simp at he
  | cons e0 t ih =>
    simp only [completesOf]
    rcases List.mem_cons.mp he with h | h
    · subst h
      exact List.mem_append_left _ (by simp [hc])
    · exact List.mem_append_right _ (ih h)

theorem mem_beanBlock_after (env : Env) (scan : List (GoType × Inst))
    (nom : List (String × Inst)) (e : GoType × Inst)
    (hc : env.caps e.2.dynType Cap.injectAfter = true) :
    Event.evInjectAfter e.2 ∈ beanBlock env scan nom e := by
  unfold beanBlock
  exact List.mem_append_right _ (by simp [hc])

end Ioc233

namespace Ioc233

/-! ### Claim theorems -/

/-- Claim C10: an instance registered as a non-pointer struct value is still
inserted by `Provide` into both the Type Index and the Name Index (when its
type and default name are fresh), but the injector silently does nothing for
it: `injectInternal` returns immediately for non-pointer instances — the heap
is unchanged and no event is emitted, so every autowire-tagged field keeps
its zero value and no resolution error is logged for it.  `Provide` also
leaves the heap unchanged for such an instance. -/
theorem provide_structVal_inserted_but_not_injected (env : Env) (w : World)
    (r sid : Nat)
    (htype : getAssoc w.ctr.typeToObjectMap (GoType.strukt sid) = none)
    (hname : getAssoc w.ctr.nameToObjMap (simpleOrString env (GoType.strukt sid)) = none) :
    getAssoc (Provide env w (some (Inst.structVal r sid))).ctr.typeToObjectMap
        (GoType.strukt sid) = some (Inst.structVal r sid) ∧
    getAssoc (Provide env w (some (Inst.structVal r sid))).ctr.nameToObjMap
        (simpleOrString env (GoType.strukt sid)) = some (Inst.structVal r sid) ∧
    (Provide env w (some (Inst.structVal r sid))).heap = w.heap ∧
    (∀ (scan : List (GoType × Inst)) (nom : List (String × Inst)) (heap : Heap),
      injectInternal env scan nom heap (Inst.structVal r sid) = (heap, [])) := by
  simp only [Provide, Inst.dynType, initBasicFields, htype, hname, Option.isSome_none,
    Bool.false_eq_true, if_false, reduceIte]
  refine ⟨?_, ?_, ?_, ?_⟩
  · rw [getAssoc_append, htype]
    simp [getAssoc]
  · rw [getAssoc_append, hname]
    simp [getAssoc]
  · first
    | rfl
    | trivial
  · intro scan nom heap
    rfl

/-- Witness for C10 at a concrete input. -/
theorem provide_structVal_witness :
    (getAssoc w0W.ctr.typeToObjectMap (GoType.strukt 1) = none ∧
     getAssoc w0W.ctr.nameToObjMap (simpleOrString envW (GoType.strukt 1)) = none) ∧
    (getAssoc (Provide envW w0W (some (Inst.structVal 1 1))).ctr.typeToObjectMap
        (GoType.strukt 1) = some (Inst.structVal 1 1) ∧
     getAssoc (Provide envW w0W (some (Inst.structVal 1 1))).ctr.nameToObjMap
        (simpleOrString envW (GoType.strukt 1)) = some (Inst.structVal 1 1) ∧
     (Provide envW w0W (some (Inst.structVal 1 1))).heap = w0W.heap ∧
     (∀ (scan : List (GoType × Inst)) (nom : List (String × Inst)) (heap : Heap),
       injectInternal envW scan nom heap (Inst.structVal 1 1) = (heap, []))) := by
  refine ⟨⟨?_, ?_⟩, ?_⟩
  · rfl
  · rfl
  · exact provide_structVal_inserted_but_not_injected envW w0W 1 1 rfl rfl

end Ioc233

namespace Ioc233

/-- Claim C9: when `Provide` is called with an instance whose concrete type
is already in the Type Index, the container's tables and fatal error log are
unchanged and `OnProvideAfter` is not fired (the whole container record and
the event trace are unchanged), yet default-value seeding was still applied
to the rejected instance itself: the resulting heap is `initBasicFields` of
the old heap, and in particular a settable, untagged map field that was nil
at call time has been replaced by a fresh empty map. -/
theorem provide_duplicate_type_seeds_but_rejects (env : Env) (w : World) (inst : Inst)
    (hdup : (getAssoc w.ctr.typeToObjectMap inst.dynType).isSome = true) :
    (Provide env w (some inst)).ctr = w.ctr ∧
    (Provide env w (some inst)).events = w.events ∧
    (Provide env w (some inst)).heap = initBasicFields env w.heap inst ∧
    (∀ (r sid : Nat) (pre post : List FieldDecl) (fd : FieldDecl),
      inst = Inst.ptrTo r sid →
      env.structFields sid = pre ++ fd :: post →
      fd.settable = true → fd.awTag = "" → fd.injTag = "" →
      fd.ftype.kind = TypeKind.kmap →
      pre.length < ((getAssoc w.heap r).getD []).length →
      ((getAssoc w.heap r).getD []).getD pre.length GoValue.vnil = GoValue.vnil →
      ∃ vals, getAssoc (Provide env w (some inst)).heap r = some vals ∧
        vals.getD pre.length GoValue.vnil = GoValue.vmapEmpty) := by
  refine ⟨by simp [Provide, hdup], by simp [Provide, hdup], by simp [Provide, hdup], ?_⟩
  intro r sid pre post fd hinst hfields hset haw hinj hkind hlen hnil
  subst hinst
  have hheap : (Provide env w (some (Inst.ptrTo r sid))).heap =
      initBasicFields env w.heap (Inst.ptrTo r sid) := by
    simp [Provide, hdup]
  rw [hheap]
  simp only [initBasicFields]
  refine ⟨_, getAssoc_setAssoc_self _ _ _, ?_⟩
  rw [hfields, initFieldsAux_at pre fd post 0 pre.length _ (by omega) hlen]
  simp only [hset, haw, hinj, and_self, if_true, reduceIte, true_and]
  rw [hnil]
  simp [ApplyDefaultProviders, hset, hkind]

/-- Witness for C9: `S3` (struct 3, with a nil untagged map field) is
registered once, then a second instance of the same type is offered. -/
theorem provide_duplicate_type_witness :
    ((getAssoc (Provide envW w0W (some (Inst.ptrTo 3 3))).ctr.typeToObjectMap
        (Inst.ptrTo 4 3).dynType).isSome = true) ∧
    ((Provide envW (Provide envW w0W (some (Inst.ptrTo 3 3))) (some (Inst.ptrTo 4 3))).ctr
        = (Provide envW w0W (some (Inst.ptrTo 3 3))).ctr ∧
     (Provide envW (Provide envW w0W (some (Inst.ptrTo 3 3))) (some (Inst.ptrTo 4 3))).events
        = (Provide envW w0W (some (Inst.ptrTo 3 3))).events ∧
     (Provide envW (Provide envW w0W (some (Inst.ptrTo 3 3))) (some (Inst.ptrTo 4 3))).heap
        = initBasicFields envW (Provide envW w0W (some (Inst.ptrTo 3 3))).heap
            (Inst.ptrTo 4 3) ∧
     (∀ (r sid : Nat) (pre post : List FieldDecl) (fd : FieldDecl),
       Inst.ptrTo 4 3 = Inst.ptrTo r sid →
       envW.structFields sid = pre ++ fd :: post →
       fd.settable = true → fd.awTag = "" → fd.injTag = "" →
       fd.ftype.kind = TypeKind.kmap →
       pre.length <
         ((getAssoc (Provide envW w0W (some (Inst.ptrTo 3 3))).heap r).getD []).length →
       ((getAssoc (Provide envW w0W (some (Inst.ptrTo 3 3))).heap r).getD []).getD
           pre.length GoValue.vnil = GoValue.vnil →
       ∃ vals,
         getAssoc (Provide envW (Provide envW w0W (some (Inst.ptrTo 3 3)))
             (some (Inst.ptrTo 4 3))).heap r = some vals ∧
         vals.getD pre.length GoValue.vnil = GoValue.vmapEmpty)) := by
  refine ⟨?_, ?_⟩
  · decide
  · exact provide_duplicate_type_seeds_but_rejects envW
      (Provide envW w0W (some (Inst.ptrTo 3 3))) (Inst.ptrTo 4 3) (by decide)

end Ioc233

namespace Ioc233

theorem provide_heap_eq (env : Env) (w : World) (inst : Inst) :
    (Provide env w (some inst)).heap = initBasicFields env w.heap inst := by
  simp only [Provide]
  split <;> rfl

theorem initBasicFields_field (env : Env) (heap : Heap) (r sid : Nat)
    (pre post : List FieldDecl) (fd : FieldDecl)
    (hfields : env.structFields sid = pre ++ fd :: post)
    (hset : fd.settable = true) (haw : fd.awTag = "") (hinj : fd.injTag = "")
    (hkind : fd.ftype.kind = TypeKind.kmap ∨ fd.ftype.kind = TypeKind.kslice)
    (hlen : pre.length < ((getAssoc heap r).getD []).length) :
    ∃ vals, getAssoc (initBasicFields env heap (Inst.ptrTo r sid)) r = some vals ∧
      vals.getD pre.length GoValue.vnil =
        (if ((getAssoc heap r).getD []).getD pre.length GoValue.vnil = GoValue.vnil then
          (if fd.ftype.kind = TypeKind.kmap then GoValue.vmapEmpty else GoValue.vsliceEmpty)
        else ((getAssoc heap r).getD []).getD pre.length GoValue.vnil) := by
  simp only [initBasicFields]
  refine ⟨_, getAssoc_setAssoc_self _ _ _, ?_⟩
  rw [hfields, initFieldsAux_at pre fd post 0 pre.length _ (by omega) hlen]
  simp only [hset, haw, hinj, and_self, if_true, reduceIte, true_and]
  rcases hkind with hk | hk
  · simp only [ApplyDefaultProviders, hset, hk, Bool.not_true, Bool.false_eq_true,
      if_false, reduceIte]
    split <;> simp_all
  · have hne : fd.ftype.kind ≠ TypeKind.kmap := by rw [hk]; decide
    simp only [ApplyDefaultProviders, hset, hk, hne, Bool.not_true, Bool.false_eq_true,
      if_false, reduceIte]
    split <;> simp_all

/-- Claim C8: for a pointer-to-struct instance passed to `Provide` or to a
successful `ProvideByName`, a settable field carrying neither an `autowire`
nor an `inject` tag whose type is a map or a slice is, immediately after the
call and before `StartUp`, non-nil and empty when it was nil at call time
(`vmapEmpty`/`vsliceEmpty`), and is left unchanged when it already held a
value. -/
theorem registration_seeds_untagged_nil_fields (env : Env) (w : World)
    (r sid : Nat) (pre post : List FieldDecl) (fd : FieldDecl) (name : String)
    (hfields : env.structFields sid = pre ++ fd :: post)
    (hset : fd.settable = true) (haw : fd.awTag = "") (hinj : fd.injTag = "")
    (hkind : fd.ftype.kind = TypeKind.kmap ∨ fd.ftype.kind = TypeKind.kslice)
    (hlen : pre.length < ((getAssoc w.heap r).getD []).length) :
    (∃ vals, getAssoc (Provide env w (some (Inst.ptrTo r sid))).heap r = some vals ∧
      vals.getD pre.length GoValue.vnil =
        (if ((getAssoc w.heap r).getD []).getD pre.length GoValue.vnil = GoValue.vnil then
          (if fd.ftype.kind = TypeKind.kmap then GoValue.vmapEmpty else GoValue.vsliceEmpty)
        else ((getAssoc w.heap r).getD []).getD pre.length GoValue.vnil)) ∧
    (trimSpace name ≠ "" → getAssoc w.ctr.nameToObjMap name = none →
      ∃ vals,
        getAssoc (ProvideByName env w name (some (Inst.ptrTo r sid))).1.heap r = some vals ∧
        vals.getD pre.length GoValue.vnil =
          (if ((getAssoc w.heap r).getD []).getD pre.length GoValue.vnil = GoValue.vnil then
            (if fd.ftype.kind = TypeKind.kmap then GoValue.vmapEmpty else GoValue.vsliceEmpty)
          else ((getAssoc w.heap r).getD []).getD pre.length GoValue.vnil)) := by
  constructor
  · rw [provide_heap_eq]
    exact initBasicFields_field env w.heap r sid pre post fd hfields hset haw hinj hkind hlen
  · intro htrim hfresh
    have hheap : (ProvideByName env w name (some (Inst.ptrTo r sid))).1.heap =
        initBasicFields env w.heap (Inst.ptrTo r sid) := by
      simp [ProvideByName, htrim, hfresh]
    rw [hheap]
    exact initBasicFields_field env w.heap r sid pre post fd hfields hset haw hinj hkind hlen

/-- Witness for C8: struct 3's untagged nil map field (index 0) is seeded by
both registration paths. -/
theorem registration_seeds_witness :
    (envW.structFields 3 =
        [] ++ ({ fname := "M", ftype := .mapT 0, awTag := "", injTag := "",
                 settable := true } : FieldDecl) ::
          [{ fname := "L", ftype := .sliceT 0, awTag := "", injTag := "",
             settable := true }] ∧
     (List.length ([] : List FieldDecl)) < ((getAssoc w0W.heap 3).getD []).length) ∧
    ((∃ vals, getAssoc (Provide envW w0W (some (Inst.ptrTo 3 3))).heap 3 = some vals ∧
      vals.getD (List.length ([] : List FieldDecl)) GoValue.vnil =
        (if ((getAssoc w0W.heap 3).getD []).getD (List.length ([] : List FieldDecl))
              GoValue.vnil = GoValue.vnil then
          (if (GoType.mapT 0).kind = TypeKind.kmap then GoValue.vmapEmpty
           else GoValue.vsliceEmpty)
        else ((getAssoc w0W.heap 3).getD []).getD (List.length ([] : List FieldDecl))
          GoValue.vnil)) ∧
    (trimSpace "X3" ≠ "" → getAssoc w0W.ctr.nameToObjMap "X3" = none →
      ∃ vals,
        getAssoc (ProvideByName envW w0W "X3" (some (Inst.ptrTo 3 3))).1.heap 3
          = some vals ∧
        vals.getD (List.length ([] : List FieldDecl)) GoValue.vnil =
          (if ((getAssoc w0W.heap 3).getD []).getD (List.length ([] : List FieldDecl))
                GoValue.vnil = GoValue.vnil then
            (if (GoType.mapT 0).kind = TypeKind.kmap then GoValue.vmapEmpty
             else GoValue.vsliceEmpty)
          else ((getAssoc w0W.heap 3).getD []).getD (List.length ([] : List FieldDecl))
            GoValue.vnil))) := by
  refine ⟨⟨by decide, by decide⟩, ?_⟩
  exact registration_seeds_untagged_nil_fields envW w0W 3 3 []
    [{ fname := "L", ftype := .sliceT 0, awTag := "", injTag := "", settable := true }]
    { fname := "M", ftype := .mapT 0, awTag := "", injTag := "", settable := true }
    "X3" (by decide) rfl rfl rfl (Or.inl rfl) (by decide)

end Ioc233

namespace Ioc233

/-- Claim C1: calling `ProvideByName` twice with the same non-blank name
(non-nil instances) makes the second call return an error and record a fatal
conflict, and afterwards — whatever further registrations happen — every
`StartUp` call (any map iteration orders) returns an error with the world
untouched: no lifecycle hook event is emitted, no field is resolved, the
heap and trace are exactly as before the call. -/
theorem provideByName_duplicate_blocks_startup (env : Env) (w : World) (name : String)
    (i1 i2 : Inst) (htrim : trimSpace name ≠ "") :
    (ProvideByName env (ProvideByName env w name (some i1)).1 name (some i2)).2 = true ∧
    (ProvideByName env (ProvideByName env w name (some i1)).1 name
        (some i2)).1.ctr.fatalErrors ≠ [] ∧
    (∀ (ops : List Op) (ord1 ord2 scan : List (GoType × Inst)),
      StartUp env ord1 ord2 scan
          (run env (ProvideByName env (ProvideByName env w name (some i1)).1 name
              (some i2)).1 ops) =
        (run env (ProvideByName env (ProvideByName env w name (some i1)).1 name
            (some i2)).1 ops, true)) := by
  have hname1 :
      (getAssoc (ProvideByName env w name (some i1)).1.ctr.nameToObjMap name).isSome
        = true := by
    by_cases hdup : (getAssoc w.ctr.nameToObjMap name).isSome = true
    · simp [ProvideByName, htrim, hdup]
    · have hnone : getAssoc w.ctr.nameToObjMap name = none := by
        cases hg : getAssoc w.ctr.nameToObjMap name with
        | none => rfl
        | some a => rw [hg] at hdup; simp at hdup
      simp only [ProvideByName, htrim, if_false, reduceIte, hdup, hnone,
        Option.isSome_none, Bool.false_eq_true]
      rw [getAssoc_append, hnone]
      simp [getAssoc]
  generalize hg : (ProvideByName env w name (some i1)).1 = w1 at hname1 ⊢
  have h2 : ProvideByName env w1 name (some i2) =
      ({ w1 with
          ctr := { w1.ctr with fatalErrors := w1.ctr.fatalErrors ++ [name] } },
        true) := by
    simp [ProvideByName, htrim, hname1]
  refine ⟨by rw [h2], by rw [h2]; simp, ?_⟩
  intro ops ord1 ord2 scan
  refine startUp_fatal env ord1 ord2 scan _ ?_
  refine run_fatal_ne env ops _ ?_
  rw [h2]
  simp

/-- Witness for C1 at a concrete input. -/
theorem provideByName_duplicate_witness :
    trimSpace "N" ≠ "" ∧
    ((ProvideByName envW (ProvideByName envW w0W "N" (some (Inst.ptrTo 0 0))).1 "N"
        (some (Inst.ptrTo 2 2))).2 = true ∧
     (ProvideByName envW (ProvideByName envW w0W "N" (some (Inst.ptrTo 0 0))).1 "N"
        (some (Inst.ptrTo 2 2))).1.ctr.fatalErrors ≠ [] ∧
     (∀ (ops : List Op) (ord1 ord2 scan : List (GoType × Inst)),
       StartUp envW ord1 ord2 scan
           (run envW (ProvideByName envW (ProvideByName envW w0W "N"
               (some (Inst.ptrTo 0 0))).1 "N" (some (Inst.ptrTo 2 2))).1 ops) =
         (run envW (ProvideByName envW (ProvideByName envW w0W "N"
             (some (Inst.ptrTo 0 0))).1 "N" (some (Inst.ptrTo 2 2))).1 ops, true))) := by
  refine ⟨by decide, ?_⟩
  exact provideByName_duplicate_blocks_startup envW w0W "N" (Inst.ptrTo 0 0)
    (Inst.ptrTo 2 2) (by decide)

end Ioc233

namespace Ioc233

/-- Counterexample to claim C2 as stated: register `*S0` via `Provide`, then
register a second `*S0` instance under the fresh name "x" via
`ProvideByName`.  The call succeeds and the Type Index entry for `*S0` now
holds the second instance — a later registration of the same concrete type
did replace the original entry (ioc.go line 131 assigns unconditionally). -/
theorem typeIndex_overwrite_counterexample :
    (ProvideByName envW (Provide envW w0W (some (Inst.ptrTo 0 0))) "x"
        (some (Inst.ptrTo 5 0))).2 = false ∧
    getAssoc (Provide envW w0W (some (Inst.ptrTo 0 0))).ctr.typeToObjectMap
        (GoType.ptr (.strukt 0)) = some (Inst.ptrTo 0 0) ∧
    getAssoc (ProvideByName envW (Provide envW w0W (some (Inst.ptrTo 0 0))) "x"
        (some (Inst.ptrTo 5 0))).1.ctr.typeToObjectMap (GoType.ptr (.strukt 0)) =
      some (Inst.ptrTo 5 0) ∧
    Inst.ptrTo 5 0 ≠ Inst.ptrTo 0 0 := by decide

/-- Claim C2 (amended): over every sequence of `Provide` / `ProvideByName`
calls the Type Index keeps at most one live entry per concrete type, and a
`Provide` whose concrete type is already present never replaces the original
entry (the whole Type Index is unchanged); only `ProvideByName` can
overwrite the entry for an existing concrete type. -/
theorem typeIndex_at_most_one_and_provide_keeps_first (env : Env) (w : World) :
    (∀ ops : List Op, keysNodup w.ctr.typeToObjectMap →
      keysNodup (run env w ops).ctr.typeToObjectMap) ∧
    (∀ inst : Inst, (getAssoc w.ctr.typeToObjectMap inst.dynType).isSome = true →
      (Provide env w (some inst)).ctr.typeToObjectMap = w.ctr.typeToObjectMap) := by
  constructor
  · intro ops h
    exact keysNodup_run env ops w h
  · intro inst hdup
    simp [Provide, hdup]

/-- Witness for the amended C2 at concrete inputs. -/
theorem typeIndex_amended_witness :
    keysNodup w0W.ctr.typeToObjectMap ∧
    keysNodup (run envW w0W [Op.opProvide (some (Inst.ptrTo 0 0)),
        Op.opProvideByName "x" (some (Inst.ptrTo 5 0))]).ctr.typeToObjectMap ∧
    ((getAssoc (Provide envW w0W (some (Inst.ptrTo 0 0))).ctr.typeToObjectMap
        (Inst.ptrTo 5 0).dynType).isSome = true) ∧
    (Provide envW (Provide envW w0W (some (Inst.ptrTo 0 0)))
        (some (Inst.ptrTo 5 0))).ctr.typeToObjectMap
      = (Provide envW w0W (some (Inst.ptrTo 0 0))).ctr.typeToObjectMap := by
  refine ⟨by unfold keysNodup; decide, ?_, by decide, ?_⟩
  · exact (typeIndex_at_most_one_and_provide_keeps_first envW w0W).1
      [Op.opProvide (some (Inst.ptrTo 0 0)),
       Op.opProvideByName "x" (some (Inst.ptrTo 5 0))] (by unfold keysNodup; decide)
  · exact (typeIndex_at_most_one_and_provide_keeps_first envW
      (Provide envW w0W (some (Inst.ptrTo 0 0)))).2 (Inst.ptrTo 5 0) (by decide)

end Ioc233

namespace Ioc233

/-- Counterexample to claim C6 as stated: `wC6ord` is a permutation of the
Type Index entries (hence a possible Go map iteration order), the beans were
registered in the order `[ptrTo 1 1, ptrTo 5 4]`, yet under this iteration
order `StartUp` fires hook 2 for the second-registered bean first — the
processing order is not the registration order. -/
theorem startup_order_counterexample :
    wC6ord.Perm wC6.ctr.typeToObjectMap ∧
    wC6.ctr.fatalErrors = [] ∧
    wC6.ctr.typeToObjectMap.map Prod.snd = [Inst.ptrTo 1 1, Inst.ptrTo 5 4] ∧
    (StartUp envW wC6ord wC6ord wC6ord wC6).1.events =
      wC6.events ++
        [Event.evInjectBefore (Inst.ptrTo 5 4), Event.evInjectAfter (Inst.ptrTo 5 4),
         Event.evInjectBefore (Inst.ptrTo 1 1), Event.evInjectAfter (Inst.ptrTo 1 1),
         Event.evInjectComplete (Inst.ptrTo 5 4),
         Event.evInjectComplete (Inst.ptrTo 1 1)] ∧
    Inst.ptrTo 5 4 ≠ Inst.ptrTo 1 1 := by decide

/-- Claim C6 (amended): when the fatal log is empty, `StartUp`'s first pass
processes the beans in the Type Index's map iteration order `ord1` (an
arbitrary permutation of the entries, not necessarily registration order):
the trace grows by exactly the per-bean blocks (hook 2, field-resolution
events, hook 3) concatenated in `ord1` order followed by the hook-4 pass,
and every registered bean contributes exactly one contiguous block. -/
theorem startup_processes_in_iteration_order (env : Env)
    (ord1 ord2 scan : List (GoType × Inst)) (w : World)
    (hfatal : w.ctr.fatalErrors = [])
    (hkeys : keysNodup w.ctr.typeToObjectMap)
    (hord1 : ord1.Perm w.ctr.typeToObjectMap) :
    (StartUp env ord1 ord2 scan w).1.events =
      w.events ++ blocksOf env scan w.ctr.nameToObjMap ord1 ++ completesOf env ord2 ∧
    (∀ e ∈ w.ctr.typeToObjectMap, ∃ l1 l2,
      ord1 = l1 ++ e :: l2 ∧ e ∉ l1 ∧ e ∉ l2 ∧
      blocksOf env scan w.ctr.nameToObjMap ord1 =
        blocksOf env scan w.ctr.nameToObjMap l1 ++
          beanBlock env scan w.ctr.nameToObjMap e ++
          blocksOf env scan w.ctr.nameToObjMap l2) := by
  refine ⟨startUp_events env ord1 ord2 scan w hfatal, ?_⟩
  intro e he
  obtain ⟨l1, l2, hsplit, h1, h2⟩ := nodup_split_of_mem (hord1.mem_iff.mpr he)
    (hord1.symm.nodup (pairsNodup_of_keysNodup _ hkeys))
  refine ⟨l1, l2, hsplit, h1, h2, ?_⟩
  rw [hsplit, blocksOf_append]
  simp [blocksOf]

/-- Witness for the amended C6 at a concrete input. -/
theorem startup_iteration_order_witness :
    (wC6.ctr.fatalErrors = [] ∧ keysNodup wC6.ctr.typeToObjectMap ∧
     wC6ord.Perm wC6.ctr.typeToObjectMap) ∧
    ((StartUp envW wC6ord wC6ord wC6ord wC6).1.events =
      wC6.events ++ blocksOf envW wC6ord wC6.ctr.nameToObjMap wC6ord ++
        completesOf envW wC6ord ∧
    (∀ e ∈ wC6.ctr.typeToObjectMap, ∃ l1 l2,
      wC6ord = l1 ++ e :: l2 ∧ e ∉ l1 ∧ e ∉ l2 ∧
      blocksOf envW wC6ord wC6.ctr.nameToObjMap wC6ord =
        blocksOf envW wC6ord wC6.ctr.nameToObjMap l1 ++
          beanBlock envW wC6ord wC6.ctr.nameToObjMap e ++
          blocksOf envW wC6ord wC6.ctr.nameToObjMap l2)) := by
  refine ⟨⟨by decide, by unfold keysNodup; decide, by decide⟩, ?_⟩
  exact startup_processes_in_iteration_order envW wC6ord wC6ord wC6ord wC6
    (by decide) (by unfold keysNodup; decide) (by decide)

end Ioc233

namespace Ioc233

/-! ### `resolveField` evaluation lemmas -/

theorem resolveField_byName_missing (env : Env) (scan : List (GoType × Inst))
    (nom : List (String × Inst)) (inst : Inst) (i : Nat) (fd : FieldDecl)
    (haw : fd.awTag ≠ "") (hnt : fd.awTag ≠ "true") (hnf : fd.awTag ≠ "false")
    (hset : fd.settable = true) (hmiss : getAssoc nom fd.awTag = none) :
    resolveField env scan nom inst i fd =
      (none, [Event.evResolveError ErrKind.errByNameMissing inst i]) := by
  simp [resolveField, haw, hnt, hnf, hset, hmiss]

theorem resolveField_byName_hit (env : Env) (scan : List (GoType × Inst))
    (nom : List (String × Inst)) (inst : Inst) (i : Nat) (fd : FieldDecl) (obj : Inst)
    (haw : fd.awTag ≠ "") (hnt : fd.awTag ≠ "true") (hnf : fd.awTag ≠ "false")
    (hset : fd.settable = true) (hobj : getAssoc nom fd.awTag = some obj)
    (hcompat : (assignableTo env obj.dynType fd.ftype ||
      (match fd.ftype with
       | .iface n => implOK env obj.dynType n
       | _ => false)) = true) :
    resolveField env scan nom inst i fd =
      (some (.vinst obj), [Event.evFieldSet inst i]) := by
  simp [resolveField, haw, hnt, hnf, hset, hobj, hcompat]

theorem resolveField_iface_unique (env : Env) (scan : List (GoType × Inst))
    (nom : List (String × Inst)) (inst : Inst) (i : Nat) (fd : FieldDecl)
    (n : Nat) (tT : GoType) (target : Inst)
    (haw : fd.awTag = "true") (hset : fd.settable = true)
    (hty : fd.ftype = GoType.iface n)
    (hfilter : scan.filter (fun e => implOK env e.2.dynType n) = [(tT, target)]) :
    resolveField env scan nom inst i fd =
      (some (.vinst target), [Event.evFieldSet inst i]) := by
  simp [resolveField, haw, hset, hty, hfilter]

theorem resolveField_iface_none (env : Env) (scan : List (GoType × Inst))
    (nom : List (String × Inst)) (inst : Inst) (i : Nat) (fd : FieldDecl) (n : Nat)
    (haw : fd.awTag = "true") (hset : fd.settable = true)
    (hty : fd.ftype = GoType.iface n)
    (hfilter : scan.filter (fun e => implOK env e.2.dynType n) = []) :
    resolveField env scan nom inst i fd =
      (none, [Event.evResolveError ErrKind.errIfaceNoImpl inst i]) := by
  simp [resolveField, haw, hset, hty, hfilter]

/-- Claim C5: with an empty fatal log, `StartUp` returns success no matter
how many fields fail to resolve, and never touches the container tables; a
resolution failure (here: a by-name field whose target name is
unregistered) only logs an error and leaves the field at its prior (zero)
value. -/
theorem resolution_errors_do_not_fail_startup (env : Env)
    (ord1 ord2 scan : List (GoType × Inst)) (w : World)
    (hfatal : w.ctr.fatalErrors = []) :
    (StartUp env ord1 ord2 scan w).2 = false ∧
    (StartUp env ord1 ord2 scan w).1.ctr = w.ctr ∧
    (∀ (r sid : Nat) (tB : GoType) (pre post : List FieldDecl) (fd : FieldDecl),
      keysNodup w.ctr.typeToObjectMap →
      ord1.Perm w.ctr.typeToObjectMap →
      (tB, Inst.ptrTo r sid) ∈ w.ctr.typeToObjectMap →
      (∀ e ∈ w.ctr.typeToObjectMap, e ≠ (tB, Inst.ptrTo r sid) →
        e.2.cellOf ≠ some r) →
      env.structFields sid = pre ++ fd :: post →
      pre.length < ((getAssoc w.heap r).getD []).length →
      fd.awTag ≠ "" → fd.awTag ≠ "true" → fd.awTag ≠ "false" → fd.settable = true →
      getAssoc w.ctr.nameToObjMap fd.awTag = none →
      ∃ vals, getAssoc (StartUp env ord1 ord2 scan w).1.heap r = some vals ∧
        vals.getD pre.length GoValue.vnil =
          ((getAssoc w.heap r).getD []).getD pre.length GoValue.vnil ∧
        Event.evResolveError ErrKind.errByNameMissing (Inst.ptrTo r sid) pre.length
          ∈ (StartUp env ord1 ord2 scan w).1.events) := by
  refine ⟨(startUp_success env ord1 ord2 scan w hfatal).1,
    (startUp_success env ord1 ord2 scan w hfatal).2, ?_⟩
  intro r sid tB pre post fd hkeys hord1 hB halias hfields hlen haw hnt hnf hset hmiss
  obtain ⟨vals, hv, hval⟩ := startUp_field_value env ord1 ord2 scan w r sid tB pre post fd
    hfatal hkeys hord1 hB halias hfields hlen
  refine ⟨vals, hv, ?_, ?_⟩
  · rw [hval, resolveField_byName_missing env scan _ _ _ fd haw hnt hnf hset hmiss]
  · refine startUp_mem_events_of_field env ord1 ord2 scan w r sid tB pre post fd hfatal
      hord1 hB hfields _ ?_
    rw [resolveField_byName_missing env scan _ _ _ fd haw hnt hnf hset hmiss]
    exact List.mem_singleton.mpr rfl

/-- Witness for C5: `*S2`'s by-name field targets the unregistered name
"S9"; `StartUp` succeeds and the field stays nil. -/
theorem resolution_errors_witness :
    wC5.ctr.fatalErrors = [] ∧
    ((StartUp envW wC5.ctr.typeToObjectMap wC5.ctr.typeToObjectMap
        wC5.ctr.typeToObjectMap wC5).2 = false ∧
     (StartUp envW wC5.ctr.typeToObjectMap wC5.ctr.typeToObjectMap
        wC5.ctr.typeToObjectMap wC5).1.ctr = wC5.ctr ∧
     (∀ (r sid : Nat) (tB : GoType) (pre post : List FieldDecl) (fd : FieldDecl),
       keysNodup wC5.ctr.typeToObjectMap →
       wC5.ctr.typeToObjectMap.Perm wC5.ctr.typeToObjectMap →
       (tB, Inst.ptrTo r sid) ∈ wC5.ctr.typeToObjectMap →
       (∀ e ∈ wC5.ctr.typeToObjectMap, e ≠ (tB, Inst.ptrTo r sid) →
         e.2.cellOf ≠ some r) →
       envW.structFields sid = pre ++ fd :: post →
       pre.length < ((getAssoc wC5.heap r).getD []).length →
       fd.awTag ≠ "" → fd.awTag ≠ "true" → fd.awTag ≠ "false" → fd.settable = true →
       getAssoc wC5.ctr.nameToObjMap fd.awTag = none →
       ∃ vals,
         getAssoc (StartUp envW wC5.ctr.typeToObjectMap wC5.ctr.typeToObjectMap
             wC5.ctr.typeToObjectMap wC5).1.heap r = some vals ∧
         vals.getD pre.length GoValue.vnil =
           ((getAssoc wC5.heap r).getD []).getD pre.length GoValue.vnil ∧
         Event.evResolveError ErrKind.errByNameMissing (Inst.ptrTo r sid) pre.length
           ∈ (StartUp envW wC5.ctr.typeToObjectMap wC5.ctr.typeToObjectMap
               wC5.ctr.typeToObjectMap wC5).1.events)) := by
  refine ⟨by decide, ?_⟩
  exact resolution_errors_do_not_fail_startup envW wC5.ctr.typeToObjectMap
    wC5.ctr.typeToObjectMap wC5.ctr.typeToObjectMap wC5 (by decide)

end Ioc233

namespace Ioc233

/-- Claim C3: for an interface-typed field tagged `autowire:"true"` on a
registered pointer-to-struct bean, under any map iteration orders: if
exactly one registered bean implements the interface, after a successful
`StartUp` the field holds exactly that bean; if no registered bean
implements it, a resolution error is logged and the field stays at its zero
value. -/
theorem iface_field_resolution (env : Env) (ord1 ord2 scan : List (GoType × Inst))
    (w : World) (r sid n : Nat) (tB : GoType) (pre post : List FieldDecl)
    (fd : FieldDecl)
    (hfatal : w.ctr.fatalErrors = [])
    (hkeys : keysNodup w.ctr.typeToObjectMap)
    (hord1 : ord1.Perm w.ctr.typeToObjectMap)
    (hscan : scan.Perm w.ctr.typeToObjectMap)
    (hB : (tB, Inst.ptrTo r sid) ∈ w.ctr.typeToObjectMap)
    (halias : ∀ e ∈ w.ctr.typeToObjectMap, e ≠ (tB, Inst.ptrTo r sid) →
      e.2.cellOf ≠ some r)
    (hfields : env.structFields sid = pre ++ fd :: post)
    (hlen : pre.length < ((getAssoc w.heap r).getD []).length)
    (haw : fd.awTag = "true") (hset : fd.settable = true)
    (hty : fd.ftype = GoType.iface n) :
    (∀ (tT : GoType) (target : Inst),
      w.ctr.typeToObjectMap.filter (fun e => implOK env e.2.dynType n) = [(tT, target)] →
      ∃ vals, getAssoc (StartUp env ord1 ord2 scan w).1.heap r = some vals ∧
        vals.getD pre.length GoValue.vnil = GoValue.vinst target) ∧
    (w.ctr.typeToObjectMap.filter (fun e => implOK env e.2.dynType n) = [] →
      ((getAssoc w.heap r).getD []).getD pre.length GoValue.vnil = GoValue.vnil →
      ∃ vals, getAssoc (StartUp env ord1 ord2 scan w).1.heap r = some vals ∧
        vals.getD pre.length GoValue.vnil = GoValue.vnil ∧
        Event.evResolveError ErrKind.errIfaceNoImpl (Inst.ptrTo r sid) pre.length
          ∈ (StartUp env ord1 ord2 scan w).1.events) := by
  constructor
  · intro tT target hfilter
    have hsf : scan.filter (fun e => implOK env e.2.dynType n) = [(tT, target)] :=
      List.perm_singleton.mp (hfilter ▸ hscan.filter _)
    obtain ⟨vals, hv, hval⟩ := startUp_field_value env ord1 ord2 scan w r sid tB pre post
      fd hfatal hkeys hord1 hB halias hfields hlen
    refine ⟨vals, hv, ?_⟩
    rw [hval, resolveField_iface_unique env scan _ _ _ fd n tT target haw hset hty hsf]
  · intro hfilter hnil
    have hsf : scan.filter (fun e => implOK env e.2.dynType n) = [] := by
      have hp := hscan.filter (fun e => implOK env e.2.dynType n)
      rw [hfilter] at hp
      exact List.Perm.eq_nil hp
    obtain ⟨vals, hv, hval⟩ := startUp_field_value env ord1 ord2 scan w r sid tB pre post
      fd hfatal hkeys hord1 hB halias hfields hlen
    refine ⟨vals, hv, ?_, ?_⟩
    · rw [hval, resolveField_iface_none env scan _ _ _ fd n haw hset hty hsf]
      exact hnil
    · refine startUp_mem_events_of_field env ord1 ord2 scan w r sid tB pre post fd hfatal
        hord1 hB hfields _ ?_
      rw [resolveField_iface_none env scan _ _ _ fd n haw hset hty hsf]
      exact List.mem_singleton.mpr rfl

/-- Witness for C3: `*S1` is the unique implementer of iface 0; after
`StartUp`, `*S0`'s interface field holds `*S1`. -/
theorem iface_field_resolution_witness :
    (wC3.ctr.fatalErrors = [] ∧ keysNodup wC3.ctr.typeToObjectMap ∧
     (GoType.ptr (.strukt 0), Inst.ptrTo 0 0) ∈ wC3.ctr.typeToObjectMap ∧
     envW.structFields 0 =
       [] ++ ({ fname := "Dep", ftype := .iface 0, awTag := "true", injTag := "",
                settable := true } : FieldDecl) :: [] ∧
     wC3.ctr.typeToObjectMap.filter
        (fun e => implOK envW e.2.dynType 0) = [(GoType.ptr (.strukt 1), Inst.ptrTo 1 1)]) ∧
    (∃ vals,
      getAssoc (StartUp envW wC3.ctr.typeToObjectMap wC3.ctr.typeToObjectMap
          wC3.ctr.typeToObjectMap wC3).1.heap 0 = some vals ∧
      vals.getD (List.length ([] : List FieldDecl)) GoValue.vnil =
        GoValue.vinst (Inst.ptrTo 1 1)) := by
  refine ⟨⟨by decide, by unfold keysNodup; decide, by decide, by decide, by decide⟩, ?_⟩
  exact (iface_field_resolution envW wC3.ctr.typeToObjectMap wC3.ctr.typeToObjectMap
      wC3.ctr.typeToObjectMap wC3 0 0 0 (GoType.ptr (.strukt 0)) []
      []
      { fname := "Dep", ftype := .iface 0, awTag := "true", injTag := "",
        settable := true }
      (by decide) (by unfold keysNodup; decide) (by decide) (by decide) (by decide)
      (by decide) (by decide) (by decide) rfl rfl rfl).1
    (GoType.ptr (.strukt 1)) (Inst.ptrTo 1 1) (by decide)

end Ioc233

namespace Ioc233

/-- Claim C7: when two pointer-to-struct beans are registered before
`StartUp` under names resolving to each other, and each carries a by-name
field (`autowire:"<the other's name>"`) of a compatible type, then after one
`StartUp` call both fields are non-null and hold the other registered bean —
mutual by-name references resolve without any cycle handling, because both
names are in the Name Index before either field is resolved. -/
theorem mutual_byName_resolution (env : Env) (ord1 ord2 scan : List (GoType × Inst))
    (w : World) (rA sA rB sB : Nat) (tA tB : GoType)
    (preA postA : List FieldDecl) (fdA : FieldDecl)
    (preB postB : List FieldDecl) (fdB : FieldDecl)
    (hfatal : w.ctr.fatalErrors = [])
    (hkeys : keysNodup w.ctr.typeToObjectMap)
    (hord1 : ord1.Perm w.ctr.typeToObjectMap)
    (hA : (tA, Inst.ptrTo rA sA) ∈ w.ctr.typeToObjectMap)
    (hB : (tB, Inst.ptrTo rB sB) ∈ w.ctr.typeToObjectMap)
    (haliasA : ∀ e ∈ w.ctr.typeToObjectMap, e ≠ (tA, Inst.ptrTo rA sA) →
      e.2.cellOf ≠ some rA)
    (haliasB : ∀ e ∈ w.ctr.typeToObjectMap, e ≠ (tB, Inst.ptrTo rB sB) →
      e.2.cellOf ≠ some rB)
    (hfieldsA : env.structFields sA = preA ++ fdA :: postA)
    (hfieldsB : env.structFields sB = preB ++ fdB :: postB)
    (hlenA : preA.length < ((getAssoc w.heap rA).getD []).length)
    (hlenB : preB.length < ((getAssoc w.heap rB).getD []).length)
    (hawA : fdA.awTag ≠ "") (hntA : fdA.awTag ≠ "true") (hnfA : fdA.awTag ≠ "false")
    (hsetA : fdA.settable = true)
    (hawB : fdB.awTag ≠ "") (hntB : fdB.awTag ≠ "true") (hnfB : fdB.awTag ≠ "false")
    (hsetB : fdB.settable = true)
    (hnameA : getAssoc w.ctr.nameToObjMap fdA.awTag = some (Inst.ptrTo rB sB))
    (hnameB : getAssoc w.ctr.nameToObjMap fdB.awTag = some (Inst.ptrTo rA sA))
    (hcompatA : (assignableTo env (Inst.ptrTo rB sB).dynType fdA.ftype ||
      (match fdA.ftype with
       | .iface n => implOK env (Inst.ptrTo rB sB).dynType n
       | _ => false)) = true)
    (hcompatB : (assignableTo env (Inst.ptrTo rA sA).dynType fdB.ftype ||
      (match fdB.ftype with
       | .iface n => implOK env (Inst.ptrTo rA sA).dynType n
       | _ => false)) = true) :
    (∃ vals, getAssoc (StartUp env ord1 ord2 scan w).1.heap rA = some vals ∧
      vals.getD preA.length GoValue.vnil = GoValue.vinst (Inst.ptrTo rB sB)) ∧
    (∃ vals, getAssoc (StartUp env ord1 ord2 scan w).1.heap rB = some vals ∧
      vals.getD preB.length GoValue.vnil = GoValue.vinst (Inst.ptrTo rA sA)) := by
  constructor
  · obtain ⟨vals, hv, hval⟩ := startUp_field_value env ord1 ord2 scan w rA sA tA preA
      postA fdA hfatal hkeys hord1 hA haliasA hfieldsA hlenA
    refine ⟨vals, hv, ?_⟩
    rw [hval, resolveField_byName_hit env scan _ _ _ fdA (Inst.ptrTo rB sB)
      hawA hntA hnfA hsetA hnameA hcompatA]
  · obtain ⟨vals, hv, hval⟩ := startUp_field_value env ord1 ord2 scan w rB sB tB preB
      postB fdB hfatal hkeys hord1 hB haliasB hfieldsB hlenB
    refine ⟨vals, hv, ?_⟩
    rw [hval, resolveField_byName_hit env scan _ _ _ fdB (Inst.ptrTo rA sA)
      hawB hntB hnfB hsetB hnameB hcompatB]

/-- Witness for C7 at the concrete mutual pair `*A5`/`*B6`. -/
theorem mutual_byName_witness :
    (wC7.ctr.fatalErrors = [] ∧ keysNodup wC7.ctr.typeToObjectMap ∧
     getAssoc wC7.ctr.nameToObjMap "B6" = some (Inst.ptrTo 7 6) ∧
     getAssoc wC7.ctr.nameToObjMap "A5" = some (Inst.ptrTo 6 5)) ∧
    ((∃ vals,
       getAssoc (StartUp envW wC7.ctr.typeToObjectMap wC7.ctr.typeToObjectMap
           wC7.ctr.typeToObjectMap wC7).1.heap 6 = some vals ∧
       vals.getD (List.length ([] : List FieldDecl)) GoValue.vnil =
         GoValue.vinst (Inst.ptrTo 7 6)) ∧
     (∃ vals,
       getAssoc (StartUp envW wC7.ctr.typeToObjectMap wC7.ctr.typeToObjectMap
           wC7.ctr.typeToObjectMap wC7).1.heap 7 = some vals ∧
       vals.getD (List.length ([] : List FieldDecl)) GoValue.vnil =
         GoValue.vinst (Inst.ptrTo 6 5))) := by
  refine ⟨⟨by decide, by unfold keysNodup; decide, by decide, by decide⟩, ?_⟩
  exact mutual_byName_resolution envW wC7.ctr.typeToObjectMap wC7.ctr.typeToObjectMap
    wC7.ctr.typeToObjectMap wC7 6 5 7 6 (GoType.ptr (.strukt 5)) (GoType.ptr (.strukt 6))
    []
    []
    { fname := "PB", ftype := .ptr (.strukt 6), awTag := "B6", injTag := "",
      settable := true }
    []
    []
    { fname := "PA", ftype := .ptr (.strukt 5), awTag := "A5", injTag := "",
      settable := true }
    (by decide) (by unfold keysNodup; decide) (by decide) (by decide) (by decide)
    (by decide) (by decide) (by decide) (by decide) (by decide) (by decide)
    (by decide) (by decide) (by decide) (by decide) (by decide) (by decide)
    (by decide) (by decide) (by decide) (by decide) (by decide) (by decide)

end Ioc233

namespace Ioc233

/-- Claim C4: for a bean (registered by some sequence of registration
calls starting from the fresh container) whose dynamic type implements all
four lifecycle hooks, the observed order is exactly: `OnProvideAfter` at
registration time (already in the trace before `StartUp` appends anything),
then — inside pass 1, as one contiguous block — `OnInjectBefore`, the
field-resolution events, `OnInjectAfter`; pass 1 contains no
`OnInjectComplete` and no `OnProvideAfter` call, every registered bean's
`OnInjectAfter` (when implemented) is inside pass 1, and the whole second
pass, which holds every `OnInjectComplete` call (this bean's included),
comes strictly after pass 1 — so hook 4 for any bean fires strictly after
hook 3 has fired for every bean, never interleaved. -/
theorem lifecycle_hook_order (env : Env) (ops : List Op)
    (ord1 ord2 scan : List (GoType × Inst)) (t : GoType) (i : Inst)
    (hfatal : (run env emptyWorld ops).ctr.fatalErrors = [])
    (hkeys : keysNodup (run env emptyWorld ops).ctr.typeToObjectMap)
    (hord1 : ord1.Perm (run env emptyWorld ops).ctr.typeToObjectMap)
    (hord2 : ord2.Perm (run env emptyWorld ops).ctr.typeToObjectMap)
    (hB : (t, i) ∈ (run env emptyWorld ops).ctr.typeToObjectMap)
    (hc1 : env.caps i.dynType Cap.provideAfter = true)
    (hc2 : env.caps i.dynType Cap.injectBefore = true)
    (hc3 : env.caps i.dynType Cap.injectAfter = true)
    (hc4 : env.caps i.dynType Cap.injectComplete = true) :
    Event.evProvideAfter i ∈ (run env emptyWorld ops).events ∧
    (∃ pre post : List Event,
      (StartUp env ord1 ord2 scan (run env emptyWorld ops)).1.events =
        (run env emptyWorld ops).events ++
          (pre ++
            ([Event.evInjectBefore i] ++
              injEvents env scan (run env emptyWorld ops).ctr.nameToObjMap i ++
              [Event.evInjectAfter i]) ++ post) ++
          completesOf env ord2 ∧
      (∀ ev ∈ pre ++
          ([Event.evInjectBefore i] ++
            injEvents env scan (run env emptyWorld ops).ctr.nameToObjMap i ++
            [Event.evInjectAfter i]) ++ post,
        ev.isComplete = false ∧ ev.isProvide = false) ∧
      (∀ e ∈ (run env emptyWorld ops).ctr.typeToObjectMap,
        env.caps e.2.dynType Cap.injectAfter = true →
        Event.evInjectAfter e.2 ∈ pre ++
          ([Event.evInjectBefore i] ++
            injEvents env scan (run env emptyWorld ops).ctr.nameToObjMap i ++
            [Event.evInjectAfter i]) ++ post) ∧
      (∀ ev ∈ completesOf env ord2, ev.isComplete = true) ∧
      Event.evInjectComplete i ∈ completesOf env ord2) := by
  refine ⟨regHookFired_run env ops emptyWorld (regHookFired_emptyWorld env) (t, i) hB hc1,
    ?_⟩
  obtain ⟨l1, l2, hsplit, hn1, hn2⟩ := nodup_split_of_mem (hord1.mem_iff.mpr hB)
    (hord1.symm.nodup (pairsNodup_of_keysNodup _ hkeys))
  refine ⟨blocksOf env scan (run env emptyWorld ops).ctr.nameToObjMap l1,
    blocksOf env scan (run env emptyWorld ops).ctr.nameToObjMap l2, ?_⟩
  have hall : blocksOf env scan (run env emptyWorld ops).ctr.nameToObjMap ord1 =
      blocksOf env scan (run env emptyWorld ops).ctr.nameToObjMap l1 ++
        ([Event.evInjectBefore i] ++
          injEvents env scan (run env emptyWorld ops).ctr.nameToObjMap i ++
          [Event.evInjectAfter i]) ++
        blocksOf env scan (run env emptyWorld ops).ctr.nameToObjMap l2 := by
    rw [hsplit, blocksOf_append]
    simp [blocksOf, beanBlock, hc2, hc3, List.append_assoc]
  refine ⟨?_, ?_, ?_, completesOf_shape env ord2,
    mem_completesOf env ord2 (t, i) (hord2.mem_iff.mpr hB) hc4⟩
  · rw [startUp_events env ord1 ord2 scan _ hfatal, hall]
  · intro ev hev
    refine blocksOf_mid env scan (run env emptyWorld ops).ctr.nameToObjMap ord1 ev ?_
    rw [hall]
    exact hev
  · intro e he hcap
    rw [← hall]
    exact mem_blocksOf_of_mem env scan _ ord1 e (hord1.mem_iff.mpr he) _
      (mem_beanBlock_after env scan _ e hcap)

/-- Witness for C4: the single all-hooks bean `*S1` registered once. -/
theorem lifecycle_hook_order_witness :
    ((run envW emptyWorld [Op.opProvide (some (Inst.ptrTo 1 1))]).ctr.fatalErrors = [] ∧
     (GoType.ptr (.strukt 1), Inst.ptrTo 1 1) ∈
       (run envW emptyWorld [Op.opProvide (some (Inst.ptrTo 1 1))]).ctr.typeToObjectMap ∧
     envW.caps (Inst.ptrTo 1 1).dynType Cap.provideAfter = true) ∧
    (Event.evProvideAfter (Inst.ptrTo 1 1) ∈
      (run envW emptyWorld [Op.opProvide (some (Inst.ptrTo 1 1))]).events ∧
    (∃ pre post : List Event,
      (StartUp envW
          (run envW emptyWorld [Op.opProvide (some (Inst.ptrTo 1 1))]).ctr.typeToObjectMap
          (run envW emptyWorld [Op.opProvide (some (Inst.ptrTo 1 1))]).ctr.typeToObjectMap
          (run envW emptyWorld [Op.opProvide (some (Inst.ptrTo 1 1))]).ctr.typeToObjectMap
          (run envW emptyWorld [Op.opProvide (some (Inst.ptrTo 1 1))])).1.events =
        (run envW emptyWorld [Op.opProvide (some (Inst.ptrTo 1 1))]).events ++
          (pre ++
            ([Event.evInjectBefore (Inst.ptrTo 1 1)] ++
              injEvents envW
                (run envW emptyWorld
                  [Op.opProvide (some (Inst.ptrTo 1 1))]).ctr.typeToObjectMap
                (run envW emptyWorld
                  [Op.opProvide (some (Inst.ptrTo 1 1))]).ctr.nameToObjMap
                (Inst.ptrTo 1 1) ++
              [Event.evInjectAfter (Inst.ptrTo 1 1)]) ++ post) ++
          completesOf envW
            (run envW emptyWorld
              [Op.opProvide (some (Inst.ptrTo 1 1))]).ctr.typeToObjectMap ∧
      (∀ ev ∈ pre ++
          ([Event.evInjectBefore (Inst.ptrTo 1 1)] ++
            injEvents envW
              (run envW emptyWorld
                [Op.opProvide (some (Inst.ptrTo 1 1))]).ctr.typeToObjectMap
              (run envW emptyWorld
                [Op.opProvide (some (Inst.ptrTo 1 1))]).ctr.nameToObjMap
              (Inst.ptrTo 1 1) ++
            [Event.evInjectAfter (Inst.ptrTo 1 1)]) ++ post,
        ev.isComplete = false ∧ ev.isProvide = false) ∧
      (∀ e ∈ (run envW emptyWorld
          [Op.opProvide (some (Inst.ptrTo 1 1))]).ctr.typeToObjectMap,
        envW.caps e.2.dynType Cap.injectAfter = true →
        Event.evInjectAfter e.2 ∈ pre ++
          ([Event.evInjectBefore (Inst.ptrTo 1 1)] ++
            injEvents envW
              (run envW emptyWorld
                [Op.opProvide (some (Inst.ptrTo 1 1))]).ctr.typeToObjectMap
              (run envW emptyWorld
                [Op.opProvide (some (Inst.ptrTo 1 1))]).ctr.nameToObjMap
              (Inst.ptrTo 1 1) ++
            [Event.evInjectAfter (Inst.ptrTo 1 1)]) ++ post) ∧
      (∀ ev ∈ completesOf envW
          (run envW emptyWorld
            [Op.opProvide (some (Inst.ptrTo 1 1))]).ctr.typeToObjectMap,
        ev.isComplete = true) ∧
      Event.evInjectComplete (Inst.ptrTo 1 1) ∈
        completesOf envW
          (run envW emptyWorld
            [Op.opProvide (some (Inst.ptrTo 1 1))]).ctr.typeToObjectMap)) := by
  refine ⟨⟨by decide, by decide, by decide⟩, ?_⟩
  exact lifecycle_hook_order envW [Op.opProvide (some (Inst.ptrTo 1 1))]
    (run envW emptyWorld [Op.opProvide (some (Inst.ptrTo 1 1))]).ctr.typeToObjectMap
    (run envW emptyWorld [Op.opProvide (some (Inst.ptrTo 1 1))]).ctr.typeToObjectMap
    (run envW emptyWorld [Op.opProvide (some (Inst.ptrTo 1 1))]).ctr.typeToObjectMap
    (GoType.ptr (.strukt 1)) (Inst.ptrTo 1 1)
    (by decide) (by unfold keysNodup; decide) (by decide) (by decide) (by decide)
    (by decide) (by decide) (by decide) (by decide)

end Ioc233
